import Mathlib

/-!
# Verification of the rust-bac BACnet stack core

A shallow embedding of the rust-bac repository's codec and client logic,
with theorems checking the natural-language specification against it.

Modelling conventions:
* A byte buffer is a `List Nat`; each element stands for one `u8`
  (theorems carry explicit `< 256` bounds where byte-ness matters).
* The zero-copy `Reader` is embedded in state-passing style: a decoder
  takes the remaining bytes and returns `Except DecodeError (value × rest)`.
* The `Writer` is embedded as pure functions returning the written bytes
  (`as_written`); buffer-capacity errors are outside the claims checked here.
* Rust `u8`/`u32` arithmetic becomes `Nat` with explicit `% 256` / `% 2^32`
  where wrapping matters; `i32` becomes `Int` with explicit two's-complement
  conversion at the byte boundary.
* Async receive loops become recursive functions over a finite script of
  data-link events; reaching the end of the script plays the role of the
  overall deadline expiring (`Timeout`).
-/

namespace RustBac

/-- Decode-side error taxonomy, from rustbac-core `src/error.rs`. -/
inductive DecodeError where
  | unexpectedEof
  | invalidLength
  | invalidTag
  | invalidValue
  | unsupported
  deriving DecidableEq, Repr

/-- `Reader::read_u8`: take one byte, fail with `UnexpectedEof` when empty. -/
def readU8 (bytes : List Nat) : Except DecodeError (Nat × List Nat) :=
  match bytes with
  | [] => .error .unexpectedEof
  | b :: rest => .ok (b, rest)

/-- `Reader::read_exact(len)`: take `len` bytes or fail with `UnexpectedEof`. -/
def readExact (len : Nat) (bytes : List Nat) :
    Except DecodeError (List Nat × List Nat) :=
  if len ≤ bytes.length then .ok (bytes.take len, bytes.drop len)
  else .error .unexpectedEof

/-- `Reader::read_be_u16`. -/
def readBeU16 (bytes : List Nat) : Except DecodeError (Nat × List Nat) := do
  let (bs, rest) ← readExact 2 bytes
  .ok (bs.headD 0 * 256 + (bs.drop 1).headD 0, rest)

/-- `Reader::read_be_u32`. -/
def readBeU32 (bytes : List Nat) : Except DecodeError (Nat × List Nat) := do
  let (bs, rest) ← readExact 4 bytes
  .ok (bs.headD 0 * 16777216 + (bs.drop 1).headD 0 * 65536 +
        (bs.drop 2).headD 0 * 256 + (bs.drop 3).headD 0, rest)

/-- The big-endian bytes `(v >> (8*i)) & 0xFF` for `i = len-1, …, 0`, exactly
the loop body of `encode_unsigned` and the low `len` bytes of `to_be_bytes`. -/
def beBytes (v : Nat) : Nat → List Nat
  | 0 => []
  | n + 1 => (v / 2 ^ (8 * n)) % 256 :: beBytes v n

/-- Big-endian accumulation `value = (value << 8) | b` over a byte list
(for `b < 256` the `or` is addition). -/
def beValue (bytes : List Nat) : Nat :=
  bytes.foldl (fun acc b => acc * 256 + b) 0

/-! ## Primitive codec (`rustbac-core/src/encoding/primitives.rs`) -/

/-- Length choice of `encode_unsigned`: minimum of 1–4 big-endian bytes. -/
def encUnsignedLen (v : Nat) : Nat :=
  if v ≤ 0xFF then 1
  else if v ≤ 0xFFFF then 2
  else if v ≤ 0xFFFFFF then 3
  else 4

/-- `encode_unsigned`: the chosen-length big-endian bytes of `v`. -/
def encodeUnsigned (v : Nat) : List Nat :=
  beBytes v (encUnsignedLen v)

/-- The read-and-fold loop of `decode_unsigned`. -/
def decodeUnsignedLoop (acc : Nat) : Nat → List Nat →
    Except DecodeError (Nat × List Nat)
  | 0, bytes => .ok (acc, bytes)
  | n + 1, bytes => do
      let (b, rest) ← readU8 bytes
      decodeUnsignedLoop (acc * 256 + b) n rest

/-- `decode_unsigned(r, len)`: rejects `len = 0` and `len > 4`, else folds
`len` bytes big-endian. -/
def decodeUnsigned (len : Nat) (bytes : List Nat) :
    Except DecodeError (Nat × List Nat) :=
  if len = 0 ∨ len > 4 then .error .invalidLength
  else decodeUnsignedLoop 0 len bytes

/-- Length choice of `encode_signed`: minimum two's-complement length. -/
def encSignedLen (v : Int) : Nat :=
  if -128 ≤ v ∧ v ≤ 127 then 1
  else if -32768 ≤ v ∧ v ≤ 32767 then 2
  else if -8388608 ≤ v ∧ v ≤ 8388607 then 3
  else 4

/-- The `u32` bit pattern of an `i32` (`value.to_be_bytes` works on this). -/
def toTwos32 (v : Int) : Nat := (v % 2 ^ 32).toNat

/-- `encode_signed`: `&value.to_be_bytes()[4 - len ..]`, i.e. the low `len`
big-endian bytes of the two's-complement pattern. -/
def encodeSigned (v : Int) : List Nat :=
  (beBytes (toTwos32 v) 4).drop (4 - encSignedLen v)

/-- Reinterpret a `u32`-range natural as an `i32` (what `i32::from_be_bytes`
does to the assembled 4-byte pattern). -/
def toSigned32 (n : Nat) : Int :=
  if n < 2 ^ 31 then (n : Int) else (n : Int) - 2 ^ 32

/-- `decode_signed(r, len)`: rejects `len = 0` / `len > 4`; reads `len`
bytes, sign-extends with `0xFF` fill bytes when bit 7 of the first byte is
set, and reinterprets the 4-byte pattern as `i32`. -/
def decodeSigned (len : Nat) (bytes : List Nat) :
    Except DecodeError (Int × List Nat) :=
  if len = 0 ∨ len > 4 then .error .invalidLength
  else do
    let (bs, rest) ← readExact len bytes
    let fill : Nat :=
      if (bs.headD 0) / 128 % 2 = 1 then (2 ^ (8 * (4 - len)) - 1) * 2 ^ (8 * len)
      else 0
    .ok (toSigned32 (fill + beValue bs), rest)

/-! ## Invoke-id allocator (`rustbac-client/src/client.rs`, `next_invoke_id`) -/

/-- One allocation step: return the current counter, then advance it with
wrapping `u8` increment, bumping `0` to `1`. -/
def nextInvokeId (counter : Nat) : Nat × Nat :=
  let id := counter
  let c1 := (counter + 1) % 256
  (id, if c1 = 0 then 1 else c1)

/-- Counter value after `n` allocations; `with_datalink` initialises it to 1. -/
def invokeCounterAfter : Nat → Nat
  | 0 => 1
  | n + 1 => (nextInvokeId (invokeCounterAfter n)).2

/-- The invoke-id issued by the `(n+1)`-th allocation (0-indexed `n`). -/
def issuedInvokeId (n : Nat) : Nat :=
  (nextInvokeId (invokeCounterAfter n)).1

theorem invokeCounterAfter_eq (n : Nat) : invokeCounterAfter n = n % 255 + 1 := by
  induction n with
  | zero => rfl
  | succ n ih =>
      simp only [invokeCounterAfter, nextInvokeId, ih]
      rcases Nat.lt_or_ge (n % 255) 254 with h | h
      · rw [if_neg (by omega)]
        omega
      · have h254 : n % 255 = 254 := by
          have := Nat.mod_lt n (y := 255) (by omega)
          omega
        rw [if_pos (by omega)]
        omega

theorem issuedInvokeId_eq (n : Nat) : issuedInvokeId n = n % 255 + 1 := by
  simp [issuedInvokeId, nextInvokeId, invokeCounterAfter_eq]

/-! ## Round-trip laws for the primitive codec -/

theorem beBytes_length (v n : Nat) : (beBytes v n).length = n := by
  induction n with
  | zero => rfl
  | succ n ih => simp [beBytes, ih]

theorem decodeUnsignedLoop_beBytes (v n acc : Nat) (rest : List Nat) :
    decodeUnsignedLoop acc n (beBytes v n ++ rest) =
      .ok (acc * 2 ^ (8 * n) + v % 2 ^ (8 * n), rest) := by
  induction n generalizing acc with
  | zero => simp [decodeUnsignedLoop, beBytes, Nat.mod_one]
  | succ n ih =>
      simp only [beBytes, List.cons_append, decodeUnsignedLoop, readU8, bind,
        Except.bind, ih]
      have h1 : v % 2 ^ (8 * (n + 1)) =
          v % 2 ^ (8 * n) + 2 ^ (8 * n) * (v / 2 ^ (8 * n) % 256) := by
        rw [show (2 : Nat) ^ (8 * (n + 1)) = 2 ^ (8 * n) * 256 by ring]
        exact Nat.mod_mul
      have hp : 2 ^ (8 * (n + 1)) = 2 ^ (8 * n) * 256 := by ring
      rw [Except.ok.injEq, Prod.mk.injEq]
      constructor
      · rw [h1, hp]; ring
      · rfl

theorem readExact_append (l rest : List Nat) (n : Nat) (h : l.length = n) :
    readExact n (l ++ rest) = .ok (l, rest) := by
  subst h
  unfold readExact
  rw [if_pos (by simp)]
  rw [List.take_left, List.drop_left]

theorem beBytes_headD (u n : Nat) :
    (beBytes u (n + 1)).headD 0 = u / 2 ^ (8 * n) % 256 := rfl

theorem beValue_foldl (u n acc : Nat) :
    (beBytes u n).foldl (fun a b => a * 256 + b) acc =
      acc * 2 ^ (8 * n) + u % 2 ^ (8 * n) := by
  induction n generalizing acc with
  | zero => simp [beBytes, Nat.mod_one]
  | succ n ih =>
      simp only [beBytes, List.foldl_cons, ih]
      have h1 : u % 2 ^ (8 * (n + 1)) =
          u % 2 ^ (8 * n) + 2 ^ (8 * n) * (u / 2 ^ (8 * n) % 256) := by
        rw [show (2 : Nat) ^ (8 * (n + 1)) = 2 ^ (8 * n) * 256 by ring]
        exact Nat.mod_mul
      rw [h1, show (2 : Nat) ^ (8 * (n + 1)) = 2 ^ (8 * n) * 256 by ring]
      ring

theorem beValue_beBytes (u n : Nat) :
    beValue (beBytes u n) = u % 2 ^ (8 * n) := by
  unfold beValue
  rw [beValue_foldl]
  ring

theorem beBytes_drop (u len : Nat) (h1 : 1 ≤ len) (h2 : len ≤ 4) :
    (beBytes u 4).drop (4 - len) = beBytes u len := by
  interval_cases len <;> rfl

theorem encSignedLen_bounds (v : Int) (hlo : -(2 ^ 31) ≤ v) (hhi : v < 2 ^ 31) :
    1 ≤ encSignedLen v ∧ encSignedLen v ≤ 4 ∧
      -(2 ^ (8 * encSignedLen v - 1) : Int) ≤ v ∧
      v < 2 ^ (8 * encSignedLen v - 1) := by
  unfold encSignedLen
  split_ifs <;> norm_num <;> omega

theorem decodeUnsigned_encodeUnsigned (v : Nat) (hv : v < 2 ^ 32)
    (rest : List Nat) :
    decodeUnsigned (encUnsignedLen v) (encodeUnsigned v ++ rest) =
      .ok (v, rest) := by
  have hb : v < 2 ^ (8 * encUnsignedLen v) := by
    unfold encUnsignedLen
    split_ifs <;> norm_num <;> omega
  have h1 : 1 ≤ encUnsignedLen v ∧ encUnsignedLen v ≤ 4 := by
    unfold encUnsignedLen
    split_ifs <;> omega
  unfold decodeUnsigned encodeUnsigned
  rw [if_neg (by omega), decodeUnsignedLoop_beBytes]
  simp [Nat.mod_eq_of_lt hb]

theorem decodeSigned_encodeSigned (v : Int) (hlo : -(2 ^ 31) ≤ v)
    (hhi : v < 2 ^ 31) (rest : List Nat) :
    decodeSigned (encSignedLen v) (encodeSigned v ++ rest) = .ok (v, rest) := by
  obtain ⟨hL1, hL4, hr1, hr2⟩ := encSignedLen_bounds v hlo hhi
  have he : encodeSigned v = beBytes (toTwos32 v) (encSignedLen v) := by
    unfold encodeSigned
    rw [beBytes_drop _ _ hL1 hL4]
  unfold decodeSigned
  rw [if_neg (by omega), he,
    readExact_append _ _ _ (beBytes_length _ _)]
  simp only [bind, Except.bind]
  set L := encSignedLen v with hLdef
  clear_value L
  interval_cases L <;>
  · rw [beValue_beBytes,
      show (beBytes (toTwos32 v) _).headD 0 = _ from beBytes_headD (toTwos32 v) _]
    simp only [Except.ok.injEq, Prod.mk.injEq, and_true]
    unfold toSigned32 toTwos32
    norm_num at hr1 hr2 ⊢
    split_ifs <;> omega


theorem encUnsignedLen_min (v m : Nat) (h1 : 1 ≤ m) (h2 : v < 2 ^ (8 * m)) :
    encUnsignedLen v ≤ m := by
  rcases Nat.lt_or_ge m 4 with hm | hm
  · interval_cases m <;>
    · norm_num at h2
      unfold encUnsignedLen
      split_ifs <;> omega
  · have : encUnsignedLen v ≤ 4 := by
      unfold encUnsignedLen
      split_ifs <;> omega
    omega

theorem encSignedLen_min (v : Int) (m : Nat) (h1 : 1 ≤ m)
    (h2 : -(2 ^ (8 * m - 1) : Int) ≤ v) (h3 : v < 2 ^ (8 * m - 1)) :
    encSignedLen v ≤ m := by
  rcases Nat.lt_or_ge m 4 with hm | hm
  · interval_cases m <;>
    · norm_num at h2 h3
      unfold encSignedLen
      split_ifs <;> omega
  · have : encSignedLen v ≤ 4 := by
      unfold encSignedLen
      split_ifs <;> omega
    omega

/-- **C4**: for every `u32` value `v`, `decode_unsigned(encode_unsigned(v)) = v`,
with the encoder choosing the minimal big-endian length 1–4; and for every
`i32` value `v`, `decode_signed(encode_signed(v)) = v`, with the encoder
choosing the minimal sign-preserving two's-complement length and the decoder
sign-extending from the given length. -/
theorem claim_C4_primitive_roundtrip :
    (∀ v : Nat, v < 2 ^ 32 → ∀ rest : List Nat,
        decodeUnsigned (encUnsignedLen v) (encodeUnsigned v ++ rest) =
          .ok (v, rest)) ∧
    (∀ v : Int, -(2 ^ 31) ≤ v → v < 2 ^ 31 → ∀ rest : List Nat,
        decodeSigned (encSignedLen v) (encodeSigned v ++ rest) =
          .ok (v, rest)) ∧
    (∀ v : Nat, 1 ≤ encUnsignedLen v ∧ encUnsignedLen v ≤ 4 ∧
        (encodeUnsigned v).length = encUnsignedLen v) ∧
    (∀ (v : Nat) (m : Nat), 1 ≤ m → v < 2 ^ (8 * m) → encUnsignedLen v ≤ m) ∧
    (∀ (v : Int) (m : Nat), 1 ≤ m → -(2 ^ (8 * m - 1) : Int) ≤ v →
        v < 2 ^ (8 * m - 1) → encSignedLen v ≤ m) := by
  refine ⟨decodeUnsigned_encodeUnsigned, decodeSigned_encodeSigned, ?_,
    encUnsignedLen_min, encSignedLen_min⟩
  intro v
  refine ⟨?_, ?_, beBytes_length v _⟩ <;>
  · unfold encUnsignedLen
    split_ifs <;> omega

/-- Witness for C4 at concrete inputs, including the signed endpoints
`INT32_MIN`, `-1`, `0`, `1`, `INT32_MAX`. -/
theorem claim_C4_witness :
    ((5 : Nat) < 2 ^ 32 ∧
      decodeUnsigned (encUnsignedLen 5) (encodeUnsigned 5 ++ []) =
        .ok (5, [])) ∧
    ((-(2 ^ 31) : Int) ≤ -2147483648 ∧ (-2147483648 : Int) < 2 ^ 31 ∧
      decodeSigned (encSignedLen (-2147483648))
        (encodeSigned (-2147483648) ++ []) = .ok (-2147483648, [])) ∧
    ((-(2 ^ 31) : Int) ≤ -1 ∧ (-1 : Int) < 2 ^ 31 ∧
      decodeSigned (encSignedLen (-1)) (encodeSigned (-1) ++ []) =
        .ok (-1, [])) ∧
    ((-(2 ^ 31) : Int) ≤ 0 ∧ (0 : Int) < 2 ^ 31 ∧
      decodeSigned (encSignedLen 0) (encodeSigned 0 ++ []) = .ok (0, [])) ∧
    ((-(2 ^ 31) : Int) ≤ 1 ∧ (1 : Int) < 2 ^ 31 ∧
      decodeSigned (encSignedLen 1) (encodeSigned 1 ++ []) = .ok (1, [])) ∧
    ((-(2 ^ 31) : Int) ≤ 2147483647 ∧ (2147483647 : Int) < 2 ^ 31 ∧
      decodeSigned (encSignedLen 2147483647)
        (encodeSigned 2147483647 ++ []) = .ok (2147483647, [])) :=
  ⟨⟨by norm_num, claim_C4_primitive_roundtrip.1 5 (by norm_num) []⟩,
   ⟨by norm_num, by norm_num,
      claim_C4_primitive_roundtrip.2.1 (-2147483648) (by norm_num) (by norm_num) []⟩,
   ⟨by norm_num, by norm_num,
      claim_C4_primitive_roundtrip.2.1 (-1) (by norm_num) (by norm_num) []⟩,
   ⟨by norm_num, by norm_num,
      claim_C4_primitive_roundtrip.2.1 0 (by norm_num) (by norm_num) []⟩,
   ⟨by norm_num, by norm_num,
      claim_C4_primitive_roundtrip.2.1 1 (by norm_num) (by norm_num) []⟩,
   ⟨by norm_num, by norm_num,
      claim_C4_primitive_roundtrip.2.1 2147483647 (by norm_num) (by norm_num) []⟩⟩

/-- **C3**: the invoke-id allocator takes the current counter, increments it
with wrapping `u8` arithmetic bumping 0 to 1, so the issued id is never 0;
from a fresh client the first 255 allocations yield 1..255 and the 256th
yields 1 again. -/
theorem claim_C3_invoke_id :
    (∀ c : Nat, nextInvokeId c =
        (c, if (c + 1) % 256 = 0 then 1 else (c + 1) % 256)) ∧
    (∀ n : Nat, issuedInvokeId n ≠ 0) ∧
    (∀ n : Nat, n < 255 → issuedInvokeId n = n + 1) ∧
    issuedInvokeId 255 = 1 := by
  refine ⟨fun c => rfl, ?_, ?_, ?_⟩
  · intro n
    rw [issuedInvokeId_eq]
    omega
  · intro n hn
    rw [issuedInvokeId_eq, Nat.mod_eq_of_lt hn]
  · rw [issuedInvokeId_eq]

/-- Witness for C3: the 4th allocation (0-indexed 3) yields 4. -/
theorem claim_C3_witness : 3 < 255 ∧ issuedInvokeId 3 = 4 :=
  ⟨by norm_num, claim_C3_invoke_id.2.2.1 3 (by norm_num)⟩

/-! ## Tag codec (`rustbac-core/src/encoding/tag.rs`) -/

/-- Application-class tag numbers 0–12. -/
inductive AppTag where
  | null | boolean | unsignedInt | signedInt | real | double
  | octetString | characterString | bitString | enumerated
  | date | time | objectId
  deriving DecidableEq, Repr

/-- The `repr(u8)` discriminant of an `AppTag`. -/
def AppTag.toU8 : AppTag → Nat
  | .null => 0
  | .boolean => 1
  | .unsignedInt => 2
  | .signedInt => 3
  | .real => 4
  | .double => 5
  | .octetString => 6
  | .characterString => 7
  | .bitString => 8
  | .enumerated => 9
  | .date => 10
  | .time => 11
  | .objectId => 12

/-- `AppTag::from_u8`: rejects values outside 0–12 with `InvalidTag`. -/
def AppTag.fromU8 (v : Nat) : Except DecodeError AppTag :=
  if v = 0 then .ok .null
  else if v = 1 then .ok .boolean
  else if v = 2 then .ok .unsignedInt
  else if v = 3 then .ok .signedInt
  else if v = 4 then .ok .real
  else if v = 5 then .ok .double
  else if v = 6 then .ok .octetString
  else if v = 7 then .ok .characterString
  else if v = 8 then .ok .bitString
  else if v = 9 then .ok .enumerated
  else if v = 10 then .ok .date
  else if v = 11 then .ok .time
  else if v = 12 then .ok .objectId
  else .error .invalidTag

/-- The four tag forms of `Tag`. -/
inductive Tag where
  | application (tag : AppTag) (len : Nat)
  | context (tagNum : Nat) (len : Nat)
  | opening (tagNum : Nat)
  | closing (tagNum : Nat)
  deriving DecidableEq, Repr

/-- The extension bytes written when the length-code is 5: one byte if
`len ≤ 253`, `0xFE` + big-endian u16 if `len ≤ 65535`, else `0xFF` +
big-endian u32 (the `% 256` make the u16/u32 casts explicit). -/
def encodeLenExt (len : Nat) : List Nat :=
  if len ≤ 253 then [len]
  else if len ≤ 65535 then [254, len / 256, len % 256]
  else [255, len / 16777216 % 256, len / 65536 % 256, len / 256 % 256, len % 256]

/-- `encode_with_meta`: the first tag octet packs tag bits, class bit and
length-code (the `|=` of disjoint bit fields is addition), followed by the
extended tag-number byte when `tag_num > 14` and extended length bytes when
the length-code is 5. -/
def encodeWithMeta (tagNum : Nat) (isContext : Bool) (len : Nat) : List Nat :=
  let tagBits := if tagNum ≤ 14 then tagNum else 15
  let classBit := cond isContext 8 0
  let lenCode := if len ≤ 4 then len else 5
  (tagBits * 16 + classBit + lenCode) ::
    ((if tagNum > 14 then [tagNum] else []) ++
      (if len ≤ 4 then [] else encodeLenExt len))

/-- `encode_open_close`: class bit set, length-code 6 (opening) or
7 (closing), extended tag-number byte when `tag_num > 14`. -/
def encodeOpenClose (tagNum : Nat) (opening : Bool) : List Nat :=
  let tagBits := if tagNum ≤ 14 then tagNum else 15
  (tagBits * 16 + 8 + cond opening 6 7) ::
    (if tagNum > 14 then [tagNum] else [])

/-- `Tag::encode`. -/
def Tag.encode : Tag → List Nat
  | .application tag len => encodeWithMeta tag.toU8 false len
  | .context tagNum len => encodeWithMeta tagNum true len
  | .opening tagNum => encodeOpenClose tagNum true
  | .closing tagNum => encodeOpenClose tagNum false

/-- `decode_len`: length-codes 0–4 are literal, 5 reads the extended form,
6–7 are rejected with `InvalidLength`. -/
def decodeLen (lenCode : Nat) (bytes : List Nat) :
    Except DecodeError (Nat × List Nat) :=
  if lenCode ≤ 4 then .ok (lenCode, bytes)
  else if lenCode = 5 then do
    let (v, r) ← readU8 bytes
    if v ≤ 253 then .ok (v, r)
    else if v = 254 then readBeU16 r
    else readBeU32 r
  else .error .invalidLength

/-- `Tag::decode`: bit tests on the first octet are written with `/` and `%`
(`(first >> 4) & 0x0f` is `first / 16 % 16`, `(first & 8) != 0` is
`first / 8 % 2 = 1`, `first & 0x07` is `first % 8`). -/
def Tag.decode (bytes : List Nat) : Except DecodeError (Tag × List Nat) := do
  let (first, r0) ← readU8 bytes
  let (tagNum, r1) ← if first / 16 % 16 = 15 then readU8 r0 else pure (first / 16 % 16, r0)
  if first / 8 % 2 = 1 ∧ first % 8 = 6 then
    .ok (.opening tagNum, r1)
  else if first / 8 % 2 = 1 ∧ first % 8 = 7 then
    .ok (.closing tagNum, r1)
  else do
    let (len, r2) ← decodeLen (first % 8) r1
    if first / 8 % 2 = 1 then
      .ok (.context tagNum len, r2)
    else do
      let tag ← AppTag.fromU8 tagNum
      .ok (.application tag len, r2)

theorem AppTag.toU8_le (tag : AppTag) : tag.toU8 ≤ 12 := by
  cases tag <;> decide

theorem AppTag.fromU8_toU8 (tag : AppTag) : AppTag.fromU8 tag.toU8 = .ok tag := by
  cases tag <;> rfl

theorem readBeU16_cons (a b : Nat) (rest : List Nat) :
    readBeU16 (a :: b :: rest) = .ok (a * 256 + b, rest) := by
  unfold readBeU16
  rw [show (a :: b :: rest) = [a, b] ++ rest from rfl,
    readExact_append [a, b] rest 2 rfl]
  rfl

theorem readBeU32_cons (a b c d : Nat) (rest : List Nat) :
    readBeU32 (a :: b :: c :: d :: rest) =
      .ok (a * 16777216 + b * 65536 + c * 256 + d, rest) := by
  unfold readBeU32
  rw [show (a :: b :: c :: d :: rest) = [a, b, c, d] ++ rest from rfl,
    readExact_append [a, b, c, d] rest 4 rfl]
  rfl

/-- `decode_len` inverts the extended-length encoding for `len < 2^32`. -/
theorem decodeLen_encodeLenExt (len : Nat) (h4 : ¬ len ≤ 4) (h32 : len < 2 ^ 32)
    (rest : List Nat) :
    decodeLen 5 (encodeLenExt len ++ rest) = .ok (len, rest) := by
  unfold decodeLen encodeLenExt
  rw [if_neg (by omega), if_pos rfl]
  by_cases h253 : len ≤ 253
  · rw [if_pos h253]
    simp only [List.cons_append, List.nil_append, readU8, bind, Except.bind]
    rw [if_pos h253]
  · rw [if_neg h253]
    by_cases h16 : len ≤ 65535
    · rw [if_pos h16]
      simp only [List.cons_append, List.nil_append, readU8, bind, Except.bind]
      norm_num
      rw [readBeU16_cons, Except.ok.injEq, Prod.mk.injEq]
      exact ⟨by omega, rfl⟩
    · rw [if_neg h16]
      simp only [List.cons_append, List.nil_append, readU8, bind, Except.bind]
      norm_num
      rw [readBeU32_cons, Except.ok.injEq, Prod.mk.injEq]
      refine ⟨?_, rfl⟩
      have h1 : len / 16777216 % 256 = len / 16777216 := by
        have : len / 16777216 < 256 := by omega
        omega
      omega

theorem tagRoundtrip_application (tag : AppTag) (len : Nat) (h32 : len < 2 ^ 32)
    (rest : List Nat) :
    Tag.decode (Tag.encode (.application tag len) ++ rest) =
      .ok (.application tag len, rest) := by
  have ht := AppTag.toU8_le tag
  have hlc : (if len ≤ 4 then len else 5) ≤ 5 := by split_ifs <;> omega
  simp only [Tag.encode, encodeWithMeta, Bool.cond_true, Bool.cond_false,
    Nat.add_zero]
  rw [if_pos (show tag.toU8 ≤ 14 by omega), if_neg (show ¬ tag.toU8 > 14 by omega)]
  simp only [List.nil_append, List.cons_append]
  unfold Tag.decode
  simp only [readU8, bind, Except.bind]
  rw [if_neg (show ¬((tag.toU8 * 16 +
      if len ≤ 4 then len else 5) / 16 % 16 = 15) by omega)]
  simp only [pure, Except.pure]
  rw [if_neg (show ¬((tag.toU8 * 16 + if len ≤ 4 then len else 5) / 8 % 2 = 1 ∧
      (tag.toU8 * 16 + if len ≤ 4 then len else 5) % 8 = 6) by omega)]
  rw [if_neg (show ¬((tag.toU8 * 16 + if len ≤ 4 then len else 5) / 8 % 2 = 1 ∧
      (tag.toU8 * 16 + if len ≤ 4 then len else 5) % 8 = 7) by omega)]
  rw [show (tag.toU8 * 16 + if len ≤ 4 then len else 5) % 8 =
    (if len ≤ 4 then len else 5) from by omega]
  rcases le_or_lt len 4 with h4 | h4
  · rw [if_pos h4, if_pos h4]
    simp only [List.nil_append]
    unfold decodeLen
    rw [if_pos h4]
    simp only [bind, Except.bind]
    rw [if_neg (show ¬((tag.toU8 * 16 + len) / 8 % 2 = 1) by omega)]
    rw [show (tag.toU8 * 16 + len) / 16 % 16 = tag.toU8 from by omega]
    rw [AppTag.fromU8_toU8]
  · rw [if_neg (by omega), if_neg (by omega)]
    rw [decodeLen_encodeLenExt len (by omega) h32 rest]
    simp only [bind, Except.bind]
    rw [if_neg (show ¬((tag.toU8 * 16 + 5) / 8 % 2 = 1) by omega)]
    rw [show (tag.toU8 * 16 + 5) / 16 % 16 = tag.toU8 from by omega]
    rw [AppTag.fromU8_toU8]

theorem tagRoundtrip_context (tn len : Nat) (htn : tn ≤ 254) (h32 : len < 2 ^ 32)
    (rest : List Nat) :
    Tag.decode (Tag.encode (.context tn len) ++ rest) =
      .ok (.context tn len, rest) := by
  have hlc : (if len ≤ 4 then len else 5) ≤ 5 := by split_ifs <;> omega
  simp only [Tag.encode, encodeWithMeta, Bool.cond_true, Bool.cond_false]
  rcases le_or_lt tn 14 with h14 | h14
  · rw [if_pos h14, if_neg (show ¬ tn > 14 by omega)]
    simp only [List.nil_append, List.cons_append]
    unfold Tag.decode
    simp only [readU8, bind, Except.bind]
    rw [if_neg (show ¬((tn * 16 + 8 +
        if len ≤ 4 then len else 5) / 16 % 16 = 15) by omega)]
    simp only [pure, Except.pure]
    rw [if_neg (show ¬((tn * 16 + 8 + if len ≤ 4 then len else 5) / 8 % 2 = 1 ∧
        (tn * 16 + 8 + if len ≤ 4 then len else 5) % 8 = 6) by omega)]
    rw [if_neg (show ¬((tn * 16 + 8 + if len ≤ 4 then len else 5) / 8 % 2 = 1 ∧
        (tn * 16 + 8 + if len ≤ 4 then len else 5) % 8 = 7) by omega)]
    rw [show (tn * 16 + 8 + if len ≤ 4 then len else 5) % 8 =
      (if len ≤ 4 then len else 5) from by omega]
    rcases le_or_lt len 4 with h4 | h4
    · rw [if_pos h4, if_pos h4]
      simp only [List.nil_append]
      unfold decodeLen
      rw [if_pos h4]
      simp only [bind, Except.bind]
      rw [if_pos (show (tn * 16 + 8 + len) / 8 % 2 = 1 by omega)]
      rw [show (tn * 16 + 8 + len) / 16 % 16 = tn from by omega]
    · rw [if_neg (by omega), if_neg (by omega)]
      rw [decodeLen_encodeLenExt len (by omega) h32 rest]
      simp only [bind, Except.bind]
      rw [if_pos (show (tn * 16 + 8 + 5) / 8 % 2 = 1 by omega)]
      rw [show (tn * 16 + 8 + 5) / 16 % 16 = tn from by omega]
  · rw [if_neg (show ¬ tn ≤ 14 by omega), if_pos h14]
    simp only [List.nil_append, List.cons_append]
    unfold Tag.decode
    simp only [readU8, bind, Except.bind]
    rw [if_pos (show (15 * 16 + 8 +
        if len ≤ 4 then len else 5) / 16 % 16 = 15 by omega)]
    rw [if_neg (show ¬((15 * 16 + 8 + if len ≤ 4 then len else 5) / 8 % 2 = 1 ∧
        (15 * 16 + 8 + if len ≤ 4 then len else 5) % 8 = 6) by omega)]
    rw [if_neg (show ¬((15 * 16 + 8 + if len ≤ 4 then len else 5) / 8 % 2 = 1 ∧
        (15 * 16 + 8 + if len ≤ 4 then len else 5) % 8 = 7) by omega)]
    rw [show (15 * 16 + 8 + if len ≤ 4 then len else 5) % 8 =
      (if len ≤ 4 then len else 5) from by omega]
    rcases le_or_lt len 4 with h4 | h4
    · rw [if_pos h4, if_pos h4]
      simp only [List.nil_append]
      unfold decodeLen
      rw [if_pos h4]
      simp only [bind, Except.bind]
      rw [if_pos (show (15 * 16 + 8 + len) / 8 % 2 = 1 by omega)]
    · rw [if_neg (by omega), if_neg (by omega)]
      rw [decodeLen_encodeLenExt len (by omega) h32 rest]
      simp only [bind, Except.bind]
      norm_num

theorem tagRoundtrip_opening (tn : Nat) (htn : tn ≤ 254) (rest : List Nat) :
    Tag.decode (Tag.encode (.opening tn) ++ rest) = .ok (.opening tn, rest) := by
  simp only [Tag.encode, encodeOpenClose, Bool.cond_true, Bool.cond_false]
  rcases le_or_lt tn 14 with h14 | h14
  · rw [if_pos h14, if_neg (show ¬ tn > 14 by omega)]
    simp only [List.nil_append, List.cons_append]
    unfold Tag.decode
    simp only [readU8, bind, Except.bind]
    rw [if_neg (show ¬((tn * 16 + 8 + 6) / 16 % 16 = 15) by omega)]
    simp only [pure, Except.pure]
    rw [if_pos (show (tn * 16 + 8 + 6) / 8 % 2 = 1 ∧
        (tn * 16 + 8 + 6) % 8 = 6 by omega)]
    rw [show (tn * 16 + 8 + 6) / 16 % 16 = tn from by omega]
  · rw [if_neg (show ¬ tn ≤ 14 by omega), if_pos h14]
    simp only [List.nil_append, List.cons_append]
    unfold Tag.decode
    simp only [readU8, bind, Except.bind]
    norm_num

theorem tagRoundtrip_closing (tn : Nat) (htn : tn ≤ 254) (rest : List Nat) :
    Tag.decode (Tag.encode (.closing tn) ++ rest) = .ok (.closing tn, rest) := by
  simp only [Tag.encode, encodeOpenClose, Bool.cond_true, Bool.cond_false]
  rcases le_or_lt tn 14 with h14 | h14
  · rw [if_pos h14, if_neg (show ¬ tn > 14 by omega)]
    simp only [List.nil_append, List.cons_append]
    unfold Tag.decode
    simp only [readU8, bind, Except.bind]
    rw [if_neg (show ¬((tn * 16 + 8 + 7) / 16 % 16 = 15) by omega)]
    simp only [pure, Except.pure]
    rw [if_neg (show ¬((tn * 16 + 8 + 7) / 8 % 2 = 1 ∧
        (tn * 16 + 8 + 7) % 8 = 6) by omega)]
    rw [if_pos (show (tn * 16 + 8 + 7) / 8 % 2 = 1 ∧
        (tn * 16 + 8 + 7) % 8 = 7 by omega)]
    rw [show (tn * 16 + 8 + 7) / 16 % 16 = tn from by omega]
  · rw [if_neg (show ¬ tn ≤ 14 by omega), if_pos h14]
    simp only [List.nil_append, List.cons_append]
    unfold Tag.decode
    simp only [readU8, bind, Except.bind]
    norm_num

/-- **C5**: every tag in the codec's domain round-trips through
`Tag::encode` / `Tag::decode`; the extended tag-number second byte is
written iff the tag number exceeds 14; lengths 0–4 are encoded literally in
the length-code, and larger lengths use length-code 5 followed by one byte
(≤ 253), `0xFE` + big-endian u16 (≤ 65535) or `0xFF` + big-endian u32. -/
theorem claim_C5_tag_roundtrip :
    (∀ (tag : AppTag) (len : Nat), len < 2 ^ 32 → ∀ rest : List Nat,
        Tag.decode (Tag.encode (.application tag len) ++ rest) =
          .ok (.application tag len, rest)) ∧
    (∀ tn len : Nat, tn ≤ 254 → len < 2 ^ 32 → ∀ rest : List Nat,
        Tag.decode (Tag.encode (.context tn len) ++ rest) =
          .ok (.context tn len, rest)) ∧
    (∀ tn : Nat, tn ≤ 254 → ∀ rest : List Nat,
        Tag.decode (Tag.encode (.opening tn) ++ rest) = .ok (.opening tn, rest)) ∧
    (∀ tn : Nat, tn ≤ 254 → ∀ rest : List Nat,
        Tag.decode (Tag.encode (.closing tn) ++ rest) = .ok (.closing tn, rest)) ∧
    (∀ tn : Nat, tn ≤ 254 →
        (Tag.encode (.opening tn)).length = if 14 < tn then 2 else 1) ∧
    (∀ tn len : Nat, tn ≤ 254 → len ≤ 4 →
        Tag.encode (.context tn len) =
          if 14 < tn then [248 + len, tn] else [tn * 16 + 8 + len]) ∧
    (∀ len : Nat, 4 < len →
        Tag.encode (.context 0 len) =
          if len ≤ 253 then [13, len]
          else if len ≤ 65535 then [13, 254, len / 256, len % 256]
          else [13, 255, len / 16777216 % 256, len / 65536 % 256,
                len / 256 % 256, len % 256]) := by
  refine ⟨tagRoundtrip_application, tagRoundtrip_context, tagRoundtrip_opening,
    tagRoundtrip_closing, ?_, ?_, ?_⟩
  · intro tn htn
    simp only [Tag.encode, encodeOpenClose, Bool.cond_true]
    split_ifs <;> simp
  · intro tn len htn h4
    simp only [Tag.encode, encodeWithMeta, Bool.cond_true]
    split_ifs <;> (try omega) <;> simp_all
  · intro len h4
    simp only [Tag.encode, encodeWithMeta, encodeLenExt, Bool.cond_true]
    rw [if_pos (by omega : (0 : Nat) ≤ 14), if_neg (by omega : ¬(0 : Nat) > 14),
      if_neg (by omega : ¬len ≤ 4), if_neg (by omega : ¬len ≤ 4)]
    split_ifs <;> simp

/-- Witness for C5: round-trips at the boundary lengths 0, 1, 2, 3, 4, 5,
253, 254, 255, 256, 65535, 65536 (context tag 1), an application tag, and
opening/closing tags, including an extended tag number. -/
theorem claim_C5_witness :
    ((5 : Nat) < 2 ^ 32 ∧
      Tag.decode (Tag.encode (.application .unsignedInt 5) ++ []) =
        .ok (.application .unsignedInt 5, [])) ∧
    ((1 : Nat) ≤ 254 ∧ (0 : Nat) < 2 ^ 32 ∧
      Tag.decode (Tag.encode (.context 1 0) ++ []) = .ok (.context 1 0, [])) ∧
    ((1 : Nat) ≤ 254 ∧ (5 : Nat) < 2 ^ 32 ∧
      Tag.decode (Tag.encode (.context 1 5) ++ []) = .ok (.context 1 5, [])) ∧
    ((1 : Nat) ≤ 254 ∧ (253 : Nat) < 2 ^ 32 ∧
      Tag.decode (Tag.encode (.context 1 253) ++ []) = .ok (.context 1 253, [])) ∧
    ((1 : Nat) ≤ 254 ∧ (254 : Nat) < 2 ^ 32 ∧
      Tag.decode (Tag.encode (.context 1 254) ++ []) = .ok (.context 1 254, [])) ∧
    ((1 : Nat) ≤ 254 ∧ (255 : Nat) < 2 ^ 32 ∧
      Tag.decode (Tag.encode (.context 1 255) ++ []) = .ok (.context 1 255, [])) ∧
    ((1 : Nat) ≤ 254 ∧ (256 : Nat) < 2 ^ 32 ∧
      Tag.decode (Tag.encode (.context 1 256) ++ []) = .ok (.context 1 256, [])) ∧
    ((1 : Nat) ≤ 254 ∧ (65535 : Nat) < 2 ^ 32 ∧
      Tag.decode (Tag.encode (.context 1 65535) ++ []) =
        .ok (.context 1 65535, [])) ∧
    ((1 : Nat) ≤ 254 ∧ (65536 : Nat) < 2 ^ 32 ∧
      Tag.decode (Tag.encode (.context 1 65536) ++ []) =
        .ok (.context 1 65536, [])) ∧
    ((30 : Nat) ≤ 254 ∧
      Tag.decode (Tag.encode (.opening 30) ++ []) = .ok (.opening 30, [])) ∧
    ((2 : Nat) ≤ 254 ∧
      Tag.decode (Tag.encode (.closing 2) ++ []) = .ok (.closing 2, [])) :=
  ⟨⟨by norm_num, claim_C5_tag_roundtrip.1 .unsignedInt 5 (by norm_num) []⟩,
   ⟨by norm_num, by norm_num,
      claim_C5_tag_roundtrip.2.1 1 0 (by norm_num) (by norm_num) []⟩,
   ⟨by norm_num, by norm_num,
      claim_C5_tag_roundtrip.2.1 1 5 (by norm_num) (by norm_num) []⟩,
   ⟨by norm_num, by norm_num,
      claim_C5_tag_roundtrip.2.1 1 253 (by norm_num) (by norm_num) []⟩,
   ⟨by norm_num, by norm_num,
      claim_C5_tag_roundtrip.2.1 1 254 (by norm_num) (by norm_num) []⟩,
   ⟨by norm_num, by norm_num,
      claim_C5_tag_roundtrip.2.1 1 255 (by norm_num) (by norm_num) []⟩,
   ⟨by norm_num, by norm_num,
      claim_C5_tag_roundtrip.2.1 1 256 (by norm_num) (by norm_num) []⟩,
   ⟨by norm_num, by norm_num,
      claim_C5_tag_roundtrip.2.1 1 65535 (by norm_num) (by norm_num) []⟩,
   ⟨by norm_num, by norm_num,
      claim_C5_tag_roundtrip.2.1 1 65536 (by norm_num) (by norm_num) []⟩,
   ⟨by norm_num, claim_C5_tag_roundtrip.2.2.1 30 (by norm_num) []⟩,
   ⟨by norm_num, claim_C5_tag_roundtrip.2.2.2.1 2 (by norm_num) []⟩⟩

/-! ## APDU types and the Error PDU (`rustbac-core/src/apdu/`) -/

/-- PDU type nibbles (`ApduType`). -/
inductive ApduType where
  | confirmedRequest | unconfirmedRequest | simpleAck | complexAck
  | segmentAck | errorPdu | reject | abort
  deriving DecidableEq, Repr

/-- The `repr(u8)` discriminant (`Error` is 5). -/
def ApduType.toU8 : ApduType → Nat
  | .confirmedRequest => 0
  | .unconfirmedRequest => 1
  | .simpleAck => 2
  | .complexAck => 3
  | .segmentAck => 4
  | .errorPdu => 5
  | .reject => 6
  | .abort => 7

/-- `ApduType::from_u8`. -/
def ApduType.fromU8 (v : Nat) : Option ApduType :=
  if v = 0 then some .confirmedRequest
  else if v = 1 then some .unconfirmedRequest
  else if v = 2 then some .simpleAck
  else if v = 3 then some .complexAck
  else if v = 4 then some .segmentAck
  else if v = 5 then some .errorPdu
  else if v = 6 then some .reject
  else if v = 7 then some .abort
  else none

/-- The Error PDU record (`BacnetError`). -/
structure BacnetError where
  invokeId : Nat
  serviceChoice : Nat
  errorClass : Option Nat
  errorCode : Option Nat
  deriving DecidableEq, Repr

/-- `decode_bacnet_error_value`: a context tag with the expected number or an
application enumerated tag, holding a variable-length unsigned. -/
def decodeBacnetErrorValue (tag : Tag) (expectedCtxTag : Nat)
    (bytes : List Nat) : Except DecodeError (Nat × List Nat) :=
  match tag with
  | .context tagNum len =>
      if tagNum = expectedCtxTag then decodeUnsigned len bytes
      else .error .invalidTag
  | .application .enumerated len => decodeUnsigned len bytes
  | _ => .error .invalidTag

/-- `BacnetError::decode`: after the type-nibble check, invoke-id and
service-choice, an empty remainder yields `None` class and code; otherwise
the three detail encodings are probed (bracketed context pair, then the
unbracketed pair via the catch-all arm). -/
def BacnetError.decode (bytes : List Nat) :
    Except DecodeError (BacnetError × List Nat) := do
  let (b0, r0) ← readU8 bytes
  if b0 / 16 ≠ ApduType.errorPdu.toU8 then .error .invalidValue
  else do
    let (invokeId, r1) ← readU8 r0
    let (serviceChoice, r2) ← readU8 r1
    if r2.isEmpty then
      .ok ({ invokeId, serviceChoice, errorClass := none, errorCode := none }, r2)
    else do
      let (t, r3) ← Tag.decode r2
      if t = .opening 0 then do
        let (classTag, r4) ← Tag.decode r3
        let (errorClass, r5) ← decodeBacnetErrorValue classTag 0 r4
        let (codeTag, r6) ← Tag.decode r5
        let (errorCode, r7) ← decodeBacnetErrorValue codeTag 1 r6
        let (closeTag, r8) ← Tag.decode r7
        match closeTag with
        | .closing 0 =>
            .ok ({ invokeId, serviceChoice,
                   errorClass := some errorClass,
                   errorCode := some errorCode }, r8)
        | _ => .error .invalidTag
      else do
        let (errorClass, r4) ← decodeBacnetErrorValue t 0 r3
        let (codeTag, r5) ← Tag.decode r4
        let (errorCode, r6) ← decodeBacnetErrorValue codeTag 1 r5
        .ok ({ invokeId, serviceChoice,
               errorClass := some errorClass,
               errorCode := some errorCode }, r6)

/-- **C10**: an Error PDU body that ends immediately after the invoke-id and
service-choice bytes decodes successfully with `error_class = None` and
`error_code = None`. -/
theorem claim_C10_error_pdu_absent_details (b0 inv svc : Nat)
    (h : b0 / 16 = 5) :
    BacnetError.decode [b0, inv, svc] =
      .ok ({ invokeId := inv, serviceChoice := svc,
             errorClass := none, errorCode := none }, []) := by
  unfold BacnetError.decode
  simp only [readU8, bind, Except.bind]
  rw [if_neg (show ¬ b0 / 16 ≠ ApduType.errorPdu.toU8 by
    simp only [ApduType.toU8]; omega)]
  simp [List.isEmpty]

/-- Witness for C10 at `b0 = 0x50`, invoke-id 42, service-choice 12. -/
theorem claim_C10_witness :
    80 / 16 = 5 ∧
    BacnetError.decode [80, 42, 12] =
      .ok ({ invokeId := 42, serviceChoice := 12,
             errorClass := none, errorCode := none }, []) :=
  ⟨by norm_num, claim_C10_error_pdu_absent_details 80 42 12 (by norm_num)⟩

/-! ## Application data-value codec (`rustbac-core/src/services/value_codec.rs`) -/

/-- UTF-8 validity as enforced by `core::str::from_utf8`: ASCII, 2-byte
(C2–DF), 3-byte (E0 A0–BF / E1–EC / ED 80–9F / EE–EF) and 4-byte
(F0 90–BF / F1–F3 / F4 80–8F) sequences with 80–BF continuations. -/
def isValidUtf8 : List Nat → Bool
  | [] => true
  | b :: rest =>
    if b ≤ 0x7F then isValidUtf8 rest
    else if 0xC2 ≤ b ∧ b ≤ 0xDF then
      match rest with
      | c1 :: rest2 => decide (0x80 ≤ c1 ∧ c1 ≤ 0xBF) && isValidUtf8 rest2
      | [] => false
    else if b = 0xE0 then
      match rest with
      | c1 :: c2 :: rest2 =>
          decide (0xA0 ≤ c1 ∧ c1 ≤ 0xBF) && decide (0x80 ≤ c2 ∧ c2 ≤ 0xBF) &&
            isValidUtf8 rest2
      | _ => false
    else if (0xE1 ≤ b ∧ b ≤ 0xEC) ∨ (0xEE ≤ b ∧ b ≤ 0xEF) then
      match rest with
      | c1 :: c2 :: rest2 =>
          decide (0x80 ≤ c1 ∧ c1 ≤ 0xBF) && decide (0x80 ≤ c2 ∧ c2 ≤ 0xBF) &&
            isValidUtf8 rest2
      | _ => false
    else if b = 0xED then
      match rest with
      | c1 :: c2 :: rest2 =>
          decide (0x80 ≤ c1 ∧ c1 ≤ 0x9F) && decide (0x80 ≤ c2 ∧ c2 ≤ 0xBF) &&
            isValidUtf8 rest2
      | _ => false
    else if b = 0xF0 then
      match rest with
      | c1 :: c2 :: c3 :: rest2 =>
          decide (0x90 ≤ c1 ∧ c1 ≤ 0xBF) && decide (0x80 ≤ c2 ∧ c2 ≤ 0xBF) &&
            decide (0x80 ≤ c3 ∧ c3 ≤ 0xBF) && isValidUtf8 rest2
      | _ => false
    else if 0xF1 ≤ b ∧ b ≤ 0xF3 then
      match rest with
      | c1 :: c2 :: c3 :: rest2 =>
          decide (0x80 ≤ c1 ∧ c1 ≤ 0xBF) && decide (0x80 ≤ c2 ∧ c2 ≤ 0xBF) &&
            decide (0x80 ≤ c3 ∧ c3 ≤ 0xBF) && isValidUtf8 rest2
      | _ => false
    else if b = 0xF4 then
      match rest with
      | c1 :: c2 :: c3 :: rest2 =>
          decide (0x80 ≤ c1 ∧ c1 ≤ 0x8F) && decide (0x80 ≤ c2 ∧ c2 ≤ 0xBF) &&
            decide (0x80 ≤ c3 ∧ c3 ≤ 0xBF) && isValidUtf8 rest2
      | _ => false
    else false

/-- The 16-variant `DataValue` union. An `f32`/`f64` is represented by its
bit pattern (the codec only moves the raw big-endian bits); a `&str` is
represented by its UTF-8 bytes. -/
inductive DataValue where
  | null
  | boolean (b : Bool)
  | unsigned (v : Nat)
  | signed (v : Int)
  | real (bits : Nat)
  | double (bits : Nat)
  | octetString (bytes : List Nat)
  | characterString (utf8 : List Nat)
  | bitString (unusedBits : Nat) (data : List Nat)
  | enumerated (v : Nat)
  | date (yearSince1900 month day weekday : Nat)
  | time (hour minute second hundredths : Nat)
  | objectId (raw : Nat)
  | constructed (tagNum : Nat) (values : List DataValue)

mutual

/-- `decode_application_data_value_from_tag`: dispatch on the already-decoded
tag; the `fuel` bounds the nesting recursion of constructed values (the Rust
loop is bounded by the finite input; fuel larger than the input length never
runs out). -/
def decodeAppValueFromTag (fuel : Nat) (tag : Tag) (bytes : List Nat) :
    Except DecodeError (DataValue × List Nat) :=
  match tag with
  | .application .null _ => .ok (.null, bytes)
  | .application .boolean len => .ok (.boolean (len != 0), bytes)
  | .application .unsignedInt len => do
      let (v, r) ← decodeUnsigned len bytes
      .ok (.unsigned v, r)
  | .application .signedInt len => do
      let (v, r) ← decodeSigned len bytes
      .ok (.signed v, r)
  | .application .real len =>
      if len = 4 then do
        let (bs, r) ← readExact 4 bytes
        .ok (.real (beValue bs), r)
      else .error .unsupported
  | .application .double len =>
      if len = 8 then do
        let (bs, r) ← readExact 8 bytes
        .ok (.double (beValue bs), r)
      else .error .unsupported
  | .application .octetString len => do
      let (bs, r) ← readExact len bytes
      .ok (.octetString bs, r)
  | .application .characterString len =>
      if len = 0 then .error .invalidLength
      else do
        let (raw, r) ← readExact len bytes
        if raw.headD 0 ≠ 0 then .error .unsupported
        else if isValidUtf8 (raw.drop 1) then .ok (.characterString (raw.drop 1), r)
        else .error .invalidValue
  | .application .bitString len =>
      if len = 0 then .error .invalidLength
      else do
        let (raw, r) ← readExact len bytes
        if raw.headD 0 > 7 then .error .invalidValue
        else .ok (.bitString (raw.headD 0) (raw.drop 1), r)
  | .application .enumerated len => do
      let (v, r) ← decodeUnsigned len bytes
      .ok (.enumerated v, r)
  | .application .date len =>
      if len = 4 then do
        let (bs, r) ← readExact 4 bytes
        .ok (.date (bs.headD 0) ((bs.drop 1).headD 0) ((bs.drop 2).headD 0)
              ((bs.drop 3).headD 0), r)
      else .error .unsupported
  | .application .time len =>
      if len = 4 then do
        let (bs, r) ← readExact 4 bytes
        .ok (.time (bs.headD 0) ((bs.drop 1).headD 0) ((bs.drop 2).headD 0)
              ((bs.drop 3).headD 0), r)
      else .error .unsupported
  | .application .objectId len =>
      if len = 4 then do
        let (bs, r) ← readExact 4 bytes
        .ok (.objectId (beValue bs), r)
      else .error .unsupported
  | .opening tagNum => decodeChildren fuel tagNum [] bytes
  | _ => .error .unsupported
termination_by (fuel, 1)

/-- The child-collection loop of the constructed-value branch: decode tags
until the matching closing tag. -/
def decodeChildren (fuel : Nat) (tagNum : Nat) (acc : List DataValue)
    (bytes : List Nat) : Except DecodeError (DataValue × List Nat) :=
  match fuel with
  | 0 => .error .unexpectedEof
  | fuel + 1 => do
      let (childTag, r) ← Tag.decode bytes
      if childTag = .closing tagNum then
        .ok (.constructed tagNum acc.reverse, r)
      else do
        let (child, r2) ← decodeAppValueFromTag fuel childTag r
        decodeChildren fuel tagNum (child :: acc) r2
termination_by (fuel, 0)

end

theorem charString_nonzero_charset_rejected (fuel len c : Nat) (s rest : List Nat)
    (hc : c ≠ 0) (hlen : len = s.length + 1) :
    decodeAppValueFromTag fuel (.application .characterString len)
      (c :: s ++ rest) = .error .unsupported := by
  unfold decodeAppValueFromTag
  rw [if_neg (by omega)]
  rw [show (c :: s ++ rest) = (c :: s) ++ rest from rfl,
    readExact_append (c :: s) rest len (by simp [hlen])]
  simp only [bind, Except.bind]
  rw [if_pos (show (c :: s).headD 0 ≠ 0 from hc)]

theorem bitString_unused_gt7_rejected (fuel len u : Nat) (d rest : List Nat)
    (hu : u > 7) (hlen : len = d.length + 1) :
    decodeAppValueFromTag fuel (.application .bitString len)
      (u :: d ++ rest) = .error .invalidValue := by
  unfold decodeAppValueFromTag
  rw [if_neg (by omega)]
  rw [show (u :: d ++ rest) = (u :: d) ++ rest from rfl,
    readExact_append (u :: d) rest len (by simp [hlen])]
  simp only [bind, Except.bind]
  rw [if_pos (show (u :: d).headD 0 > 7 from hu)]

theorem bitString_unused_le7_accepted (fuel len u : Nat) (d rest : List Nat)
    (hu : u ≤ 7) (hlen : len = d.length + 1) :
    decodeAppValueFromTag fuel (.application .bitString len)
      (u :: d ++ rest) = .ok (.bitString u d, rest) := by
  unfold decodeAppValueFromTag
  rw [if_neg (by omega)]
  rw [show (u :: d ++ rest) = (u :: d) ++ rest from rfl,
    readExact_append (u :: d) rest len (by simp [hlen])]
  simp only [bind, Except.bind]
  rw [if_neg (show ¬ (u :: d).headD 0 > 7 from by simpa using hu)]
  rfl

theorem charString_zero_charset_accepted (fuel len : Nat) (s rest : List Nat)
    (hs : isValidUtf8 s = true) (hlen : len = s.length + 1) :
    decodeAppValueFromTag fuel (.application .characterString len)
      ((0 :: s) ++ rest) = .ok (.characterString s, rest) := by
  unfold decodeAppValueFromTag
  rw [if_neg (by omega)]
  rw [readExact_append (0 :: s) rest len (by simp [hlen])]
  simp only [bind, Except.bind]
  rw [if_neg (show ¬ (0 :: s).headD 0 ≠ 0 from by simp)]
  rw [if_pos (show isValidUtf8 ((0 :: s).drop 1) = true from by simpa using hs)]
  simp

/-- **C6**: decoding an application data value rejects every character-string
whose leading charset byte is nonzero (with `Unsupported`) and every
bit-string whose leading unused-bits byte exceeds 7 (with `InvalidValue`);
bit-strings with unused-bits 0–7 and character-strings with charset byte 0
and valid UTF-8 content are accepted. -/
theorem claim_C6_charset_and_bitstring :
    (∀ (fuel len c : Nat) (s rest : List Nat), c ≠ 0 → len = s.length + 1 →
        decodeAppValueFromTag fuel (.application .characterString len)
          (c :: s ++ rest) = .error .unsupported) ∧
    (∀ (fuel len u : Nat) (d rest : List Nat), u > 7 → len = d.length + 1 →
        decodeAppValueFromTag fuel (.application .bitString len)
          (u :: d ++ rest) = .error .invalidValue) ∧
    (∀ (fuel len u : Nat) (d rest : List Nat), u ≤ 7 → len = d.length + 1 →
        decodeAppValueFromTag fuel (.application .bitString len)
          (u :: d ++ rest) = .ok (.bitString u d, rest)) ∧
    (∀ (fuel len : Nat) (s rest : List Nat), isValidUtf8 s = true →
        len = s.length + 1 →
        decodeAppValueFromTag fuel (.application .characterString len)
          ((0 :: s) ++ rest) = .ok (.characterString s, rest)) :=
  ⟨charString_nonzero_charset_rejected, bitString_unused_gt7_rejected,
   bitString_unused_le7_accepted, charString_zero_charset_accepted⟩

/-- Witness for C6: charset byte 5 is rejected, unused-bits 8 is rejected,
unused-bits 0 and 7 are accepted, and charset byte 0 with ASCII content is
accepted. -/
theorem claim_C6_witness :
    ((5 : Nat) ≠ 0 ∧ (2 : Nat) = [104].length + 1 ∧
      decodeAppValueFromTag 9 (.application .characterString 2)
        (5 :: [104] ++ []) = .error .unsupported) ∧
    ((8 : Nat) > 7 ∧ (2 : Nat) = [160].length + 1 ∧
      decodeAppValueFromTag 9 (.application .bitString 2)
        (8 :: [160] ++ []) = .error .invalidValue) ∧
    ((0 : Nat) ≤ 7 ∧ (2 : Nat) = [160].length + 1 ∧
      decodeAppValueFromTag 9 (.application .bitString 2)
        (0 :: [160] ++ []) = .ok (.bitString 0 [160], [])) ∧
    ((7 : Nat) ≤ 7 ∧ (2 : Nat) = [160].length + 1 ∧
      decodeAppValueFromTag 9 (.application .bitString 2)
        (7 :: [160] ++ []) = .ok (.bitString 7 [160], [])) ∧
    (isValidUtf8 [104, 105] = true ∧ (3 : Nat) = [104, 105].length + 1 ∧
      decodeAppValueFromTag 9 (.application .characterString 3)
        ((0 :: [104, 105]) ++ []) = .ok (.characterString [104, 105], [])) :=
  ⟨⟨by norm_num, by norm_num,
     claim_C6_charset_and_bitstring.1 9 2 5 [104] [] (by norm_num) (by norm_num)⟩,
   ⟨by norm_num, by norm_num,
     claim_C6_charset_and_bitstring.2.1 9 2 8 [160] [] (by norm_num) (by norm_num)⟩,
   ⟨by norm_num, by norm_num,
     claim_C6_charset_and_bitstring.2.2.1 9 2 0 [160] [] (by norm_num) (by norm_num)⟩,
   ⟨by norm_num, by norm_num,
     claim_C6_charset_and_bitstring.2.2.1 9 2 7 [160] [] (by norm_num) (by norm_num)⟩,
   ⟨by decide, by norm_num,
     claim_C6_charset_and_bitstring.2.2.2 9 3 [104, 105] [] (by decide) (by norm_num)⟩⟩

/-! ## Client error taxonomy (`rustbac-datalink`, `rustbac-client/src/error.rs`) -/

/-- `DataLinkError`. -/
inductive DataLinkError where
  | io
  | frameTooLarge
  | invalidFrame
  | unsupportedBvlcFunction (code : Nat)
  | bvlcResult (code : Nat)
  | bbmdNotConfigured
  deriving DecidableEq, Repr

/-- The `ClientError` variants the embedded client logic can produce. -/
inductive ClientError where
  | timeout
  | unsupportedResponse
  | segmentedRequestTooLarge
  | responseTooLarge (limit : Nat)
  | segmentNegativeAck (sequenceNumber : Nat)
  | remoteReject (reason : Nat)
  | remoteAbort (reason : Nat) (server : Bool)
  | remoteServiceError (serviceChoice : Nat)
  | dataLink (e : DataLinkError)
  | decodeFailed (e : DecodeError)
  deriving DecidableEq, Repr

/-! ## Confirmed-request segmentation (`client.rs`, `send_confirmed_request`) -/

/-- `MIN_SEGMENT_DATA_LEN`. -/
def MIN_SEGMENT_DATA_LEN : Nat := 32

/-- `MAX_COMPLEX_ACK_REASSEMBLY_BYTES` (1 MiB). -/
def MAX_COMPLEX_ACK_REASSEMBLY_BYTES : Nat := 1024 * 1024

/-- `max_apdu_octets`: the low nibble of the code selects the octet count. -/
def maxApduOctets (code : Nat) : Nat :=
  match code % 16 with
  | 0 => 50
  | 1 => 128
  | 2 => 206
  | 3 => 480
  | 4 => 1024
  | 5 => 1476
  | _ => 480

/-- Rust `usize::div_ceil`. -/
def divCeil (a b : Nat) : Nat := (a + b - 1) / b

/-- `max_apdu_octets(max_apdu).saturating_sub(5).max(MIN_SEGMENT_DATA_LEN)`
(`Nat` subtraction is saturating). -/
def segmentDataLen (maxApdu : Nat) : Nat :=
  max (maxApduOctets maxApdu - 5) MIN_SEGMENT_DATA_LEN

/-- The per-segment service-payload slices `&service_payload[start..end]`
built by the window loop of `send_confirmed_request`, in order. -/
def requestSegments (L : Nat) (payload : List Nat) : List (List Nat) :=
  (List.range (divCeil payload.length L)).map fun i =>
    (payload.drop (i * L)).take L

/-- What `send_confirmed_request` does to the service payload before any
window bookkeeping: a single-segment body is sent whole, more than 256
segments fail with `SegmentedRequestTooLarge` before any send, otherwise the
payload is split into the window loop's segments. -/
inductive SendPlan where
  | whole
  | segments (frames : List (List Nat))
  deriving DecidableEq, Repr

/-- The segmentation decision of `send_confirmed_request` (lines 453–465 and
the slicing at 479–481): the sliding-window ack protocol only affects the
order acknowledgements are awaited, not the split itself. -/
def planConfirmedRequest (maxApdu : Nat) (payload : List Nat) :
    Except ClientError SendPlan :=
  let L := segmentDataLen maxApdu
  let segmentCount := divCeil payload.length L
  if segmentCount ≤ 1 then .ok .whole
  else if segmentCount > 256 then .error .segmentedRequestTooLarge
  else .ok (.segments (requestSegments L payload))

theorem divCeil_eq (len L : Nat) (hL : 0 < L) (hlen : 0 < len) :
    divCeil len L = (len - 1) / L + 1 := by
  unfold divCeil
  rw [show len + L - 1 = (len - 1) + L by omega, Nat.add_div_right _ hL]

theorem divCeil_drop (len L : Nat) (hL : 0 < L) (hlen : 0 < len) :
    divCeil (len - L) L = divCeil len L - 1 := by
  rcases le_or_lt len L with h | h
  · rw [show len - L = 0 by omega]
    rw [divCeil_eq len L hL hlen]
    unfold divCeil
    rw [Nat.div_eq_of_lt (by omega), Nat.div_eq_of_lt (by omega)]
  · rw [divCeil_eq len L hL hlen, divCeil_eq (len - L) L hL (by omega)]
    rw [show len - 1 = (len - L - 1) + L by omega, Nat.add_div_right _ hL]
    simp

theorem divCeil_zero (L : Nat) (hL : 0 < L) : divCeil 0 L = 0 := by
  unfold divCeil
  exact Nat.div_eq_of_lt (by omega)

theorem requestSegments_nil (L : Nat) (hL : 0 < L) :
    requestSegments L [] = [] := by
  unfold requestSegments
  simp [divCeil_zero L hL]

theorem requestSegments_cons (L : Nat) (payload : List Nat) (hL : 0 < L)
    (hne : 0 < payload.length) :
    requestSegments L payload =
      payload.take L :: requestSegments L (payload.drop L) := by
  unfold requestSegments
  rw [List.length_drop, divCeil_drop _ _ hL hne]
  have hn : 0 < divCeil payload.length L := by
    rw [divCeil_eq _ _ hL hne]
    exact Nat.succ_pos _
  obtain ⟨m, hm⟩ : ∃ m, divCeil payload.length L = m + 1 :=
    ⟨divCeil payload.length L - 1, by omega⟩
  rw [hm]
  rw [List.range_succ_eq_map]
  simp only [List.map_cons, Nat.zero_mul, List.drop_zero, List.map_map,
    Nat.add_sub_cancel]
  congr 1
  apply List.map_congr_left
  intro i _
  simp only [Function.comp_apply, List.drop_drop, Nat.succ_mul]
  rw [Nat.add_comm (i * L) L]

theorem requestSegments_flatten_bounded (L : Nat) (hL : 0 < L) :
    ∀ (n : Nat) (payload : List Nat), payload.length ≤ n →
      (requestSegments L payload).flatten = payload := by
  intro n
  induction n with
  | zero =>
      intro payload h
      have h0 : payload = [] := by
        cases payload with
        | nil => rfl
        | cons a as => simp at h
      subst h0
      rw [requestSegments_nil L hL]
      rfl
  | succ n ih =>
      intro payload h
      rcases Nat.eq_zero_or_pos payload.length with h0 | hpos
      · have h0 : payload = [] := List.length_eq_zero.mp h0
        subst h0
        rw [requestSegments_nil L hL]
        rfl
      · rw [requestSegments_cons L payload hL hpos, List.flatten_cons,
          ih (payload.drop L) (by simp only [List.length_drop]; omega),
          List.take_append_drop]

theorem requestSegments_flatten (L : Nat) (hL : 0 < L) (payload : List Nat) :
    (requestSegments L payload).flatten = payload :=
  requestSegments_flatten_bounded L hL payload.length payload le_rfl

theorem requestSegments_length (L : Nat) (payload : List Nat) :
    (requestSegments L payload).length = divCeil payload.length L := by
  simp [requestSegments]

theorem requestSegments_getD (L i : Nat) (payload : List Nat)
    (h : i < divCeil payload.length L) :
    (requestSegments L payload).getD i [] = (payload.drop (i * L)).take L := by
  unfold requestSegments
  rw [List.getD_eq_getElem?_getD, List.getElem?_map, List.getElem?_range h]
  rfl

theorem segmentDataLen_pos (maxApdu : Nat) : 0 < segmentDataLen maxApdu := by
  have : MIN_SEGMENT_DATA_LEN ≤ segmentDataLen maxApdu := Nat.le_max_right _ _
  unfold MIN_SEGMENT_DATA_LEN at this
  omega

theorem requestSegments_mid_length (L i : Nat) (payload : List Nat)
    (hL : 0 < L) (h : i + 1 < divCeil payload.length L) :
    ((requestSegments L payload).getD i []).length = L := by
  have hlen : 0 < payload.length := by
    by_contra h0
    have : payload.length = 0 := by omega
    rw [this, divCeil_zero L hL] at h
    omega
  rw [requestSegments_getD L i payload (by omega)]
  simp only [List.length_take, List.length_drop]
  have hn := divCeil_eq payload.length L hL hlen
  have h1 : (i + 1) * L ≤ ((payload.length - 1) / L) * L := by
    apply Nat.mul_le_mul_right
    omega
  have h2 : ((payload.length - 1) / L) * L ≤ payload.length - 1 :=
    Nat.div_mul_le_self _ _
  have h3 : (i + 1) * L = i * L + L := by ring
  omega

theorem requestSegments_last_length (L : Nat) (payload : List Nat)
    (hL : 0 < L) (h : 0 < divCeil payload.length L) :
    ((requestSegments L payload).getD (divCeil payload.length L - 1) []).length =
      payload.length - (divCeil payload.length L - 1) * L := by
  have hlen : 0 < payload.length := by
    by_contra h0
    have : payload.length = 0 := by omega
    rw [this, divCeil_zero L hL] at h
    omega
  rw [requestSegments_getD L _ payload (by omega)]
  simp only [List.length_take, List.length_drop]
  have hn := divCeil_eq payload.length L hL hlen
  have h1 : (divCeil payload.length L - 1) * L = ((payload.length - 1) / L) * L := by
    rw [hn]
    simp
  have h2 := Nat.div_add_mod (payload.length - 1) L
  have h3 := Nat.mod_lt (payload.length - 1) hL
  have h4 : ((payload.length - 1) / L) * L = L * ((payload.length - 1) / L) :=
    Nat.mul_comm _ _
  omega

/-- **C2**: a confirmed request whose body does not fit in one segment is
split into slices of `max_apdu_octets(code) − 5` bytes (floor 32), the last
possibly shorter, whose concatenation is the body; `max_apdu_octets` maps
codes 0–5 to {50, 128, 206, 480, 1024, 1476} and everything else to 480; and
more than 256 segments fail with `SegmentedRequestTooLarge` before sending. -/
theorem claim_C2_segmentation :
    (maxApduOctets 0 = 50 ∧ maxApduOctets 1 = 128 ∧ maxApduOctets 2 = 206 ∧
      maxApduOctets 3 = 480 ∧ maxApduOctets 4 = 1024 ∧ maxApduOctets 5 = 1476 ∧
      (∀ c : Nat, 6 ≤ c % 16 → maxApduOctets c = 480)) ∧
    (∀ maxApdu : Nat, segmentDataLen maxApdu =
      max (maxApduOctets maxApdu - 5) 32) ∧
    (∀ (maxApdu : Nat) (payload : List Nat),
      divCeil payload.length (segmentDataLen maxApdu) > 256 →
      planConfirmedRequest maxApdu payload = .error .segmentedRequestTooLarge) ∧
    (∀ (maxApdu : Nat) (payload : List Nat),
      1 < divCeil payload.length (segmentDataLen maxApdu) →
      divCeil payload.length (segmentDataLen maxApdu) ≤ 256 →
      planConfirmedRequest maxApdu payload =
        .ok (.segments (requestSegments (segmentDataLen maxApdu) payload))) ∧
    (∀ (maxApdu : Nat) (payload : List Nat),
      (requestSegments (segmentDataLen maxApdu) payload).length =
        divCeil payload.length (segmentDataLen maxApdu)) ∧
    (∀ (maxApdu i : Nat) (payload : List Nat),
      i + 1 < divCeil payload.length (segmentDataLen maxApdu) →
      ((requestSegments (segmentDataLen maxApdu) payload).getD i []).length =
        segmentDataLen maxApdu) ∧
    (∀ (maxApdu : Nat) (payload : List Nat),
      0 < divCeil payload.length (segmentDataLen maxApdu) →
      ((requestSegments (segmentDataLen maxApdu) payload).getD
          (divCeil payload.length (segmentDataLen maxApdu) - 1) []).length =
        payload.length -
          (divCeil payload.length (segmentDataLen maxApdu) - 1) *
            segmentDataLen maxApdu) ∧
    (∀ (maxApdu : Nat) (payload : List Nat),
      (requestSegments (segmentDataLen maxApdu) payload).flatten = payload) := by
  refine ⟨⟨rfl, rfl, rfl, rfl, rfl, rfl, ?_⟩, fun _ => rfl, ?_, ?_, ?_, ?_, ?_, ?_⟩
  · intro c hc
    unfold maxApduOctets
    have h16 := Nat.mod_lt c (y := 16) (by omega)
    interval_cases h : c % 16 <;> simp_all
  · intro maxApdu payload h
    unfold planConfirmedRequest
    rw [if_neg (by omega), if_pos (by omega)]
  · intro maxApdu payload h1 h2
    unfold planConfirmedRequest
    rw [if_neg (by omega), if_neg (by omega)]
  · intro maxApdu payload
    exact requestSegments_length _ _
  · intro maxApdu i payload h
    exact requestSegments_mid_length _ i payload (segmentDataLen_pos _) h
  · intro maxApdu payload h
    exact requestSegments_last_length _ payload (segmentDataLen_pos _) h
  · intro maxApdu payload
    exact requestSegments_flatten _ (segmentDataLen_pos _) payload

/-- Witness for C2: max-apdu code 0 gives 45-byte segments; a 100-byte body
splits into 3 segments (first of full length); an 11521-byte body would need
257 segments and is refused; code 7 maps to 480 octets. -/
theorem claim_C2_witness :
    (divCeil (List.replicate 11521 (0 : Nat)).length (segmentDataLen 0) > 256 ∧
      planConfirmedRequest 0 (List.replicate 11521 0) =
        .error .segmentedRequestTooLarge) ∧
    (1 < divCeil (List.replicate 100 (7 : Nat)).length (segmentDataLen 0) ∧
      divCeil (List.replicate 100 (7 : Nat)).length (segmentDataLen 0) ≤ 256 ∧
      planConfirmedRequest 0 (List.replicate 100 7) =
        .ok (.segments
          (requestSegments (segmentDataLen 0) (List.replicate 100 7)))) ∧
    (0 + 1 < divCeil (List.replicate 100 (7 : Nat)).length (segmentDataLen 0) ∧
      ((requestSegments (segmentDataLen 0) (List.replicate 100 7)).getD 0
          []).length = segmentDataLen 0) ∧
    (6 ≤ 7 % 16 ∧ maxApduOctets 7 = 480) := by
  have hbig : divCeil (List.replicate 11521 (0 : Nat)).length
      (segmentDataLen 0) > 256 := by
    simp only [List.length_replicate]
    decide
  have h1 : 1 < divCeil (List.replicate 100 (7 : Nat)).length
      (segmentDataLen 0) := by
    simp only [List.length_replicate]
    decide
  have h2 : divCeil (List.replicate 100 (7 : Nat)).length
      (segmentDataLen 0) ≤ 256 := by
    simp only [List.length_replicate]
    decide
  have h3 : 0 + 1 < divCeil (List.replicate 100 (7 : Nat)).length
      (segmentDataLen 0) := by
    simp only [List.length_replicate]
    decide
  exact ⟨⟨hbig, claim_C2_segmentation.2.2.1 0 _ hbig⟩,
         ⟨h1, h2, claim_C2_segmentation.2.2.2.1 0 _ h1 h2⟩,
         ⟨h3, claim_C2_segmentation.2.2.2.2.2.1 0 0 _ h3⟩,
         ⟨by norm_num, claim_C2_segmentation.1.2.2.2.2.2.2 7 (by norm_num)⟩⟩

/-! ## BACnet/IP transport (`rustbac-datalink/src/bip/`) -/

/-- An IPv4 socket address (the claim's domain; the Rust `SocketAddr` also
admits IPv6, which no branch modelled here constructs). -/
structure SockAddrV4 where
  a : Nat
  b : Nat
  c : Nat
  d : Nat
  port : Nat
  deriving DecidableEq, Repr

/-- `BvlcFunction` with its `Unknown` catch-all. -/
inductive BvlcFunction where
  | result
  | writeBroadcastDistributionTable
  | readBroadcastDistributionTable
  | readBroadcastDistributionTableAck
  | forwardedNpdu
  | registerForeignDevice
  | readForeignDeviceTable
  | readForeignDeviceTableAck
  | deleteForeignDeviceTableEntry
  | distributeBroadcastToNetwork
  | originalUnicastNpdu
  | originalBroadcastNpdu
  | unknown (v : Nat)
  deriving DecidableEq, Repr

/-- `BvlcFunction::from_u8`. -/
def BvlcFunction.fromU8 (v : Nat) : BvlcFunction :=
  if v = 0x00 then .result
  else if v = 0x01 then .writeBroadcastDistributionTable
  else if v = 0x02 then .readBroadcastDistributionTable
  else if v = 0x03 then .readBroadcastDistributionTableAck
  else if v = 0x04 then .forwardedNpdu
  else if v = 0x05 then .registerForeignDevice
  else if v = 0x06 then .readForeignDeviceTable
  else if v = 0x07 then .readForeignDeviceTableAck
  else if v = 0x08 then .deleteForeignDeviceTableEntry
  else if v = 0x09 then .distributeBroadcastToNetwork
  else if v = 0x0A then .originalUnicastNpdu
  else if v = 0x0B then .originalBroadcastNpdu
  else .unknown v

/-- `BvlcHeader::decode`: type byte 0x81, function byte, big-endian u16
length which must be at least 4. -/
def bvlcHeaderDecode (bytes : List Nat) :
    Except DecodeError ((BvlcFunction × Nat) × List Nat) := do
  let (b, r0) ← readU8 bytes
  if b ≠ 0x81 then .error .invalidValue
  else do
    let (f, r1) ← readU8 r0
    let (length, r2) ← readBeU16 r1
    if length < 4 then .error .invalidLength
    else .ok ((BvlcFunction.fromU8 f, length), r2)

/-- `BacnetIpTransport::recv` applied to one received datagram: decode the
BVLC header and dispatch; a Forwarded-NPDU strips a 6-byte origin address
(4 IPv4 octets + big-endian u16 port) and reports the origin, not the UDP
sender, as source. `bufLen` is the caller's buffer capacity (1500 in the
client). -/
def bipRecv (sender : SockAddrV4) (datagram : List Nat) (bufLen : Nat) :
    Except DataLinkError (List Nat × SockAddrV4) :=
  match bvlcHeaderDecode datagram with
  | .error _ => .error .invalidFrame
  | .ok ((function, length), r) =>
    match function with
    | .originalUnicastNpdu | .originalBroadcastNpdu
    | .distributeBroadcastToNetwork =>
        match readExact (length - 4) r with
        | .error _ => .error .invalidFrame
        | .ok (payload, _) =>
            if payload.length > bufLen then .error .frameTooLarge
            else .ok (payload, sender)
    | .forwardedNpdu =>
        match readExact (length - 4) r with
        | .error _ => .error .invalidFrame
        | .ok (forwarded, _) =>
            if forwarded.length < 6 then .error .invalidFrame
            else
              let payload := forwarded.drop 6
              if payload.length > bufLen then .error .frameTooLarge
              else
                .ok (payload,
                  { a := forwarded.headD 0, b := (forwarded.drop 1).headD 0,
                    c := (forwarded.drop 2).headD 0,
                    d := (forwarded.drop 3).headD 0,
                    port := (forwarded.drop 4).headD 0 * 256 +
                      (forwarded.drop 5).headD 0 })
    | .unknown v => .error (.unsupportedBvlcFunction v)
    | _ => .error .invalidFrame

theorem readExact_all (l : List Nat) : readExact l.length l = .ok (l, []) := by
  unfold readExact
  rw [if_pos le_rfl]
  simp

/-- **C8**: a Forwarded-NPDU frame whose payload starts with a 6-byte origin
address delivers the remaining NPDU bytes with the origin socket address as
the reported source, for every UDP sender. -/
theorem claim_C8_forwarded_npdu (sender : SockAddrV4)
    (o1 o2 o3 o4 p1 p2 : Nat) (npdu : List Nat) (bufLen : Nat)
    (hlen : 10 + npdu.length ≤ 65535) (hbuf : npdu.length ≤ bufLen) :
    bipRecv sender
      ([0x81, 0x04] ++ beBytes (10 + npdu.length) 2 ++
        [o1, o2, o3, o4, p1, p2] ++ npdu) bufLen =
      .ok (npdu,
        { a := o1, b := o2, c := o3, d := o4, port := p1 * 256 + p2 }) := by
  have hbe : beBytes (10 + npdu.length) 2 =
      [(10 + npdu.length) / 256 % 256, (10 + npdu.length) % 256] := by
    have h1 : beBytes (10 + npdu.length) 2 =
        [(10 + npdu.length) / 2 ^ (8 * 1) % 256,
         (10 + npdu.length) / 2 ^ (8 * 0) % 256] := rfl
    rw [h1]
    norm_num
  unfold bipRecv bvlcHeaderDecode
  rw [hbe]
  simp only [List.cons_append, List.nil_append, readU8, bind, Except.bind]
  rw [if_neg (by norm_num), readBeU16_cons]
  rw [show (10 + npdu.length) / 256 % 256 * 256 + (10 + npdu.length) % 256 =
    10 + npdu.length from by omega]
  have hre : readExact ((10 + npdu.length) - 4)
      (o1 :: o2 :: o3 :: o4 :: p1 :: p2 :: npdu) =
      .ok (o1 :: o2 :: o3 :: o4 :: p1 :: p2 :: npdu, []) := by
    rw [show (10 + npdu.length) - 4 =
      (o1 :: o2 :: o3 :: o4 :: p1 :: p2 :: npdu).length from by
        simp only [List.length_cons]
        omega]
    exact readExact_all _
  simp [show BvlcFunction.fromU8 4 = .forwardedNpdu from rfl,
    show ¬(10 + npdu.length < 4) from by omega, hre,
    show ¬(npdu.length > bufLen) from by omega,
    show ¬((o1 :: o2 :: o3 :: o4 :: p1 :: p2 :: npdu).length < 6) from by
      simp only [List.length_cons]
      omega]

/-- Witness for C8: origin bytes `0A 01 02 03 BA C0` and NPDU `01 02 03`
from an arbitrary sender yield source `10.1.2.3:47808` and payload
`01 02 03`. -/
theorem claim_C8_witness :
    10 + [1, 2, 3].length ≤ 65535 ∧ [1, 2, 3].length ≤ 1500 ∧
    bipRecv { a := 9, b := 9, c := 9, d := 9, port := 99 }
      [0x81, 0x04, 0x00, 0x0D, 0x0A, 0x01, 0x02, 0x03, 0xBA, 0xC0,
        0x01, 0x02, 0x03] 1500 =
      .ok ([1, 2, 3], { a := 10, b := 1, c := 2, d := 3, port := 47808 }) :=
  ⟨by norm_num, by norm_num,
    claim_C8_forwarded_npdu { a := 9, b := 9, c := 9, d := 9, port := 99 }
      10 1 2 3 186 192 [1, 2, 3] 1500 (by norm_num) (by norm_num)⟩

/-! ## Complex-ack reassembly (`client.rs`, `collect_complex_ack_payload`) -/

/-- `ComplexAckHeader` (from `rustbac-core/src/apdu/confirmed.rs`). -/
structure ComplexAckHeader where
  segmented : Bool
  moreFollows : Bool
  invokeId : Nat
  sequenceNumber : Option Nat
  proposedWindowSize : Option Nat
  serviceChoice : Nat
  deriving DecidableEq, Repr

/-- The `while more_follows` receive loop of `collect_complex_ack_payload`,
restricted to the Complex-Ack dispatch arm (the claim quantifies over
complex-ack segments arriving from the target peer; frames from other
addresses, other PDU types and invalid frames are skipped by earlier claims'
code). One script entry is a decoded segment header with its payload bytes;
script exhaustion is the overall deadline (`Timeout`). The second component
collects the `send_segment_ack(invoke_id, seq, window)` calls as
`(seq, window)` pairs, in order. -/
def collectLoop (invokeId serviceChoice : Nat) (payload : List Nat)
    (lastSeq windowSize : Nat) :
    List (ComplexAckHeader × List Nat) →
      Except ClientError (List Nat) × List (Nat × Nat)
  | [] => (.error .timeout, [])
  | (seg, body) :: rest =>
    if seg.invokeId ≠ invokeId ∨ seg.serviceChoice ≠ serviceChoice then
      collectLoop invokeId serviceChoice payload lastSeq windowSize rest
    else if seg.segmented = false then (.error .unsupportedResponse, [])
    else
      match seg.sequenceNumber with
      | none => (.error .unsupportedResponse, [])
      | some seq =>
        if seq = lastSeq then
          -- Duplicate segment: acknowledge again and continue waiting.
          let (r, acks) :=
            collectLoop invokeId serviceChoice payload lastSeq windowSize rest
          (r, (lastSeq, windowSize) :: acks)
        else if seq ≠ (lastSeq + 1) % 256 then
          collectLoop invokeId serviceChoice payload lastSeq windowSize rest
        else if payload.length + body.length > MAX_COMPLEX_ACK_REASSEMBLY_BYTES
        then
          (.error (.responseTooLarge MAX_COMPLEX_ACK_REASSEMBLY_BYTES), [])
        else
          let payload2 := payload ++ body
          let window2 := seg.proposedWindowSize.getD windowSize
          if seg.moreFollows then
            let (r, acks) :=
              collectLoop invokeId serviceChoice payload2 seq window2 rest
            (r, (seq, window2) :: acks)
          else (.ok payload2, [(seq, window2)])

/-- Entry of `collect_complex_ack_payload`: the first-payload size check, the
unsegmented short-cut, the first segment-ack, then the loop while
`more_follows`. -/
def collectComplexAckPayload (invokeId serviceChoice : Nat)
    (first : ComplexAckHeader) (firstPayload : List Nat)
    (frames : List (ComplexAckHeader × List Nat)) :
    Except ClientError (List Nat) × List (Nat × Nat) :=
  if firstPayload.length > MAX_COMPLEX_ACK_REASSEMBLY_BYTES then
    (.error (.responseTooLarge MAX_COMPLEX_ACK_REASSEMBLY_BYTES), [])
  else if first.segmented = false then (.ok firstPayload, [])
  else
    match first.sequenceNumber with
    | none => (.error .unsupportedResponse, [])
    | some lastSeq =>
      let windowSize := first.proposedWindowSize.getD 1
      let (r, acks) :=
        if first.moreFollows then
          collectLoop invokeId serviceChoice firstPayload lastSeq windowSize
            frames
        else (.ok firstPayload, [])
      (r, (lastSeq, windowSize) :: acks)

/-- A well-formed in-order segment from the target peer. -/
def mkSeg (inv svc seq : Nat) (more : Bool) (w : Option Nat) :
    ComplexAckHeader :=
  { segmented := true, moreFollows := more, invokeId := inv,
    sequenceNumber := some seq, proposedWindowSize := w, serviceChoice := svc }

/-- The script of consecutive segments carrying `bodies`, with sequence
numbers `startSeq+1, startSeq+2, …` (wrapping u8) and `more_follows` set on
all but the last. -/
def segFrames (inv svc startSeq : Nat) :
    List (List Nat) → List (ComplexAckHeader × List Nat)
  | [] => []
  | body :: rest =>
      (mkSeg inv svc ((startSeq + 1) % 256) (!rest.isEmpty) none, body) ::
        segFrames inv svc ((startSeq + 1) % 256) rest

/-- The segment-acks the loop sends for `segFrames`: one per segment, at the
current window size (no proposals change it). -/
def runAcks (ws lastSeq : Nat) : List (List Nat) → List (Nat × Nat)
  | [] => []
  | _ :: rest =>
      ((lastSeq + 1) % 256, ws) :: runAcks ws ((lastSeq + 1) % 256) rest

theorem collectLoop_duplicate (inv svc : Nat) (payload : List Nat)
    (lastSeq ws : Nat) (seg : ComplexAckHeader) (body : List Nat)
    (rest : List (ComplexAckHeader × List Nat))
    (h1 : seg.invokeId = inv) (h2 : seg.serviceChoice = svc)
    (h3 : seg.segmented = true) (h4 : seg.sequenceNumber = some lastSeq) :
    collectLoop inv svc payload lastSeq ws ((seg, body) :: rest) =
      ((collectLoop inv svc payload lastSeq ws rest).1,
       (lastSeq, ws) :: (collectLoop inv svc payload lastSeq ws rest).2) := by
  rcases hre : collectLoop inv svc payload lastSeq ws rest with ⟨r, acks⟩
  conv_lhs => rw [collectLoop]
  simp [h1, h2, h3, h4, hre]

theorem collectLoop_out_of_order (inv svc : Nat) (payload : List Nat)
    (lastSeq ws seq : Nat) (seg : ComplexAckHeader) (body : List Nat)
    (rest : List (ComplexAckHeader × List Nat))
    (h1 : seg.invokeId = inv) (h2 : seg.serviceChoice = svc)
    (h3 : seg.segmented = true) (h4 : seg.sequenceNumber = some seq)
    (h5 : seq ≠ lastSeq) (h6 : seq ≠ (lastSeq + 1) % 256) :
    collectLoop inv svc payload lastSeq ws ((seg, body) :: rest) =
      collectLoop inv svc payload lastSeq ws rest := by
  conv_lhs => rw [collectLoop]
  simp [h1, h2, h3, h4, h5, h6]

theorem collectLoop_accept (inv svc : Nat) (payload : List Nat)
    (lastSeq ws : Nat) (seg : ComplexAckHeader) (body : List Nat)
    (rest : List (ComplexAckHeader × List Nat))
    (h1 : seg.invokeId = inv) (h2 : seg.serviceChoice = svc)
    (h3 : seg.segmented = true)
    (h4 : seg.sequenceNumber = some ((lastSeq + 1) % 256))
    (h7 : payload.length + body.length ≤ MAX_COMPLEX_ACK_REASSEMBLY_BYTES) :
    collectLoop inv svc payload lastSeq ws ((seg, body) :: rest) =
      (if seg.moreFollows then
        ((collectLoop inv svc (payload ++ body) ((lastSeq + 1) % 256)
            (seg.proposedWindowSize.getD ws) rest).1,
         ((lastSeq + 1) % 256, seg.proposedWindowSize.getD ws) ::
           (collectLoop inv svc (payload ++ body) ((lastSeq + 1) % 256)
             (seg.proposedWindowSize.getD ws) rest).2)
      else (.ok (payload ++ body),
        [((lastSeq + 1) % 256, seg.proposedWindowSize.getD ws)])) := by
  have hne : (lastSeq + 1) % 256 ≠ lastSeq := by omega
  rcases hre : collectLoop inv svc (payload ++ body) ((lastSeq + 1) % 256)
      (seg.proposedWindowSize.getD ws) rest with ⟨r, acks⟩
  conv_lhs => rw [collectLoop]
  rcases hm : seg.moreFollows with _ | _ <;>
    simp [h1, h2, h3, h4, hne, hm, hre, Nat.not_lt.mpr h7]

theorem collectLoop_overflow_step (inv svc : Nat) (payload : List Nat)
    (lastSeq ws : Nat) (seg : ComplexAckHeader) (body : List Nat)
    (rest : List (ComplexAckHeader × List Nat))
    (h1 : seg.invokeId = inv) (h2 : seg.serviceChoice = svc)
    (h3 : seg.segmented = true)
    (h4 : seg.sequenceNumber = some ((lastSeq + 1) % 256))
    (h7 : payload.length + body.length > MAX_COMPLEX_ACK_REASSEMBLY_BYTES) :
    collectLoop inv svc payload lastSeq ws ((seg, body) :: rest) =
      (.error (.responseTooLarge MAX_COMPLEX_ACK_REASSEMBLY_BYTES), []) := by
  have hne : (lastSeq + 1) % 256 ≠ lastSeq := by omega
  conv_lhs => rw [collectLoop]
  simp [h1, h2, h3, h4, hne, h7]

theorem collectLoop_run (inv svc : Nat) (bodies : List (List Nat)) :
    ∀ (payload : List Nat) (lastSeq ws : Nat),
      bodies ≠ [] →
      payload.length + bodies.flatten.length ≤
        MAX_COMPLEX_ACK_REASSEMBLY_BYTES →
      collectLoop inv svc payload lastSeq ws
          (segFrames inv svc lastSeq bodies) =
        (.ok (payload ++ bodies.flatten), runAcks ws lastSeq bodies) := by
  induction bodies with
  | nil => intro _ _ _ h _; exact absurd rfl h
  | cons body rest ih =>
      intro payload lastSeq ws _ hsize
      have hflat : (body :: rest).flatten = body ++ rest.flatten := rfl
      rw [segFrames]
      rw [collectLoop_accept inv svc payload lastSeq ws _ body _ rfl rfl rfl rfl
        (by rw [hflat] at hsize; simp only [List.length_append] at hsize; omega)]
      cases rest with
      | nil =>
          simp [mkSeg, runAcks]
      | cons b2 bs =>
          have hmore : (mkSeg inv svc ((lastSeq + 1) % 256)
              (!(b2 :: bs).isEmpty) none).moreFollows = true := rfl
          rw [if_pos hmore]
          have hwin : (mkSeg inv svc ((lastSeq + 1) % 256)
              (!(b2 :: bs).isEmpty) none).proposedWindowSize.getD ws = ws := rfl
          rw [hwin]
          rw [ih (payload ++ body) ((lastSeq + 1) % 256) ws (by simp)
            (by rw [hflat] at hsize
                simp only [List.length_append] at hsize ⊢
                omega)]
          simp [runAcks, hflat]

theorem collectLoop_run_overflow (inv svc : Nat) (bodies : List (List Nat)) :
    ∀ (payload : List Nat) (lastSeq ws : Nat),
      bodies ≠ [] →
      payload.length + bodies.flatten.length >
        MAX_COMPLEX_ACK_REASSEMBLY_BYTES →
      (collectLoop inv svc payload lastSeq ws
          (segFrames inv svc lastSeq bodies)).1 =
        .error (.responseTooLarge MAX_COMPLEX_ACK_REASSEMBLY_BYTES) := by
  induction bodies with
  | nil => intro _ _ _ h _; exact absurd rfl h
  | cons body rest ih =>
      intro payload lastSeq ws _ hsize
      have hflat : (body :: rest).flatten = body ++ rest.flatten := rfl
      rw [segFrames]
      by_cases hb :
          payload.length + body.length > MAX_COMPLEX_ACK_REASSEMBLY_BYTES
      · rw [collectLoop_overflow_step inv svc payload lastSeq ws _ body _
          rfl rfl rfl rfl hb]
      · push_neg at hb
        rw [collectLoop_accept inv svc payload lastSeq ws _ body _ rfl rfl rfl
          rfl hb]
        cases rest with
        | nil =>
            rw [hflat] at hsize
            simp only [List.flatten_nil, List.append_nil,
              List.length_append] at hsize
            omega
        | cons b2 bs =>
            have hmore : (mkSeg inv svc ((lastSeq + 1) % 256)
                (!(b2 :: bs).isEmpty) none).moreFollows = true := rfl
            rw [if_pos hmore]
            have hwin : (mkSeg inv svc ((lastSeq + 1) % 256)
                (!(b2 :: bs).isEmpty) none).proposedWindowSize.getD ws = ws :=
              rfl
            rw [hwin]
            exact ih (payload ++ body) ((lastSeq + 1) % 256) ws (by simp)
              (by rw [hflat] at hsize
                  simp only [List.length_append] at hsize ⊢
                  omega)

theorem collectComplexAckPayload_mkSeg (inv svc s0 : Nat) (w0 : Option Nat)
    (firstPayload : List Nat) (frames : List (ComplexAckHeader × List Nat))
    (hfp : firstPayload.length ≤ MAX_COMPLEX_ACK_REASSEMBLY_BYTES) :
    collectComplexAckPayload inv svc (mkSeg inv svc s0 true w0) firstPayload
        frames =
      ((collectLoop inv svc firstPayload s0 (w0.getD 1) frames).1,
       (s0, w0.getD 1) ::
         (collectLoop inv svc firstPayload s0 (w0.getD 1) frames).2) := by
  rcases hre : collectLoop inv svc firstPayload s0 (w0.getD 1) frames with
    ⟨r, acks⟩
  unfold collectComplexAckPayload
  rw [if_neg (by omega)]
  simp [mkSeg, hre]

/-- **C1**: during complex-ack reassembly, a duplicate segment (sequence =
last accepted) is re-acked without payload growth; a segment that is neither
the duplicate nor last+1 (wrapping u8) is dropped without an ack; valid next
segments are appended so the final payload is the in-order concatenation;
and exceeding 1 MiB of accumulated payload fails with `ResponseTooLarge`
carrying that limit. -/
theorem claim_C1_complex_ack_reassembly :
    (∀ (inv svc : Nat) (payload : List Nat) (lastSeq ws : Nat)
        (seg : ComplexAckHeader) (body : List Nat)
        (rest : List (ComplexAckHeader × List Nat)),
      seg.invokeId = inv → seg.serviceChoice = svc → seg.segmented = true →
      seg.sequenceNumber = some lastSeq →
      collectLoop inv svc payload lastSeq ws ((seg, body) :: rest) =
        ((collectLoop inv svc payload lastSeq ws rest).1,
         (lastSeq, ws) :: (collectLoop inv svc payload lastSeq ws rest).2)) ∧
    (∀ (inv svc : Nat) (payload : List Nat) (lastSeq ws seq : Nat)
        (seg : ComplexAckHeader) (body : List Nat)
        (rest : List (ComplexAckHeader × List Nat)),
      seg.invokeId = inv → seg.serviceChoice = svc → seg.segmented = true →
      seg.sequenceNumber = some seq → seq ≠ lastSeq →
      seq ≠ (lastSeq + 1) % 256 →
      collectLoop inv svc payload lastSeq ws ((seg, body) :: rest) =
        collectLoop inv svc payload lastSeq ws rest) ∧
    (∀ (inv svc s0 : Nat) (w0 : Option Nat) (firstPayload : List Nat)
        (bodies : List (List Nat)),
      bodies ≠ [] →
      firstPayload.length + bodies.flatten.length ≤
        MAX_COMPLEX_ACK_REASSEMBLY_BYTES →
      collectComplexAckPayload inv svc (mkSeg inv svc s0 true w0) firstPayload
          (segFrames inv svc s0 bodies) =
        (.ok (firstPayload ++ bodies.flatten),
         (s0, w0.getD 1) :: runAcks (w0.getD 1) s0 bodies)) ∧
    (∀ (inv svc : Nat) (first : ComplexAckHeader) (firstPayload : List Nat)
        (frames : List (ComplexAckHeader × List Nat)),
      firstPayload.length > MAX_COMPLEX_ACK_REASSEMBLY_BYTES →
      collectComplexAckPayload inv svc first firstPayload frames =
        (.error (.responseTooLarge MAX_COMPLEX_ACK_REASSEMBLY_BYTES), [])) ∧
    (∀ (inv svc s0 : Nat) (w0 : Option Nat) (firstPayload : List Nat)
        (bodies : List (List Nat)),
      bodies ≠ [] →
      firstPayload.length + bodies.flatten.length >
        MAX_COMPLEX_ACK_REASSEMBLY_BYTES →
      (collectComplexAckPayload inv svc (mkSeg inv svc s0 true w0) firstPayload
          (segFrames inv svc s0 bodies)).1 =
        .error (.responseTooLarge MAX_COMPLEX_ACK_REASSEMBLY_BYTES)) ∧
    MAX_COMPLEX_ACK_REASSEMBLY_BYTES = 1024 * 1024 := by
  refine ⟨?_, ?_, ?_, ?_, ?_, rfl⟩
  · intro inv svc payload lastSeq ws seg body rest h1 h2 h3 h4
    exact collectLoop_duplicate inv svc payload lastSeq ws seg body rest
      h1 h2 h3 h4
  · intro inv svc payload lastSeq ws seq seg body rest h1 h2 h3 h4 h5 h6
    exact collectLoop_out_of_order inv svc payload lastSeq ws seq seg body rest
      h1 h2 h3 h4 h5 h6
  · intro inv svc s0 w0 firstPayload bodies hne hsize
    rw [collectComplexAckPayload_mkSeg inv svc s0 w0 firstPayload _ (by omega)]
    rw [collectLoop_run inv svc bodies firstPayload s0 _ hne hsize]
  · intro inv svc first firstPayload frames h
    unfold collectComplexAckPayload
    rw [if_pos h]
  · intro inv svc s0 w0 firstPayload bodies hne hsize
    rcases le_or_lt firstPayload.length MAX_COMPLEX_ACK_REASSEMBLY_BYTES with
      hfp | hfp
    · rw [collectComplexAckPayload_mkSeg inv svc s0 w0 firstPayload _ hfp]
      exact collectLoop_run_overflow inv svc bodies firstPayload s0 _ hne hsize
    · unfold collectComplexAckPayload
      rw [if_pos (by omega)]

/-- Witness for C1: a duplicate of sequence 5 is re-acked without growth, an
out-of-order sequence 9 after 5 is dropped, and a two-segment run appends
both bodies in order with one ack per segment. -/
theorem claim_C1_witness :
    ((mkSeg 1 12 5 true none).invokeId = 1 ∧
      (mkSeg 1 12 5 true none).serviceChoice = 12 ∧
      (mkSeg 1 12 5 true none).segmented = true ∧
      (mkSeg 1 12 5 true none).sequenceNumber = some 5 ∧
      collectLoop 1 12 [9] 5 2 [(mkSeg 1 12 5 true none, [7])] =
        ((collectLoop 1 12 [9] 5 2 []).1,
         (5, 2) :: (collectLoop 1 12 [9] 5 2 []).2)) ∧
    ((mkSeg 1 12 9 true none).sequenceNumber = some 9 ∧ (9 : Nat) ≠ 5 ∧
      (9 : Nat) ≠ (5 + 1) % 256 ∧
      collectLoop 1 12 [9] 5 2 [(mkSeg 1 12 9 true none, [7])] =
        collectLoop 1 12 [9] 5 2 []) ∧
    (([[2], [3]] : List (List Nat)) ≠ [] ∧
      [1].length + ([[2], [3]] : List (List Nat)).flatten.length ≤
        MAX_COMPLEX_ACK_REASSEMBLY_BYTES ∧
      collectComplexAckPayload 1 12 (mkSeg 1 12 0 true none) [1]
          (segFrames 1 12 0 [[2], [3]]) =
        (.ok ([1] ++ ([[2], [3]] : List (List Nat)).flatten),
         (0, 1) :: runAcks 1 0 [[2], [3]])) ∧
    ((List.replicate 1048577 (0 : Nat)).length >
        MAX_COMPLEX_ACK_REASSEMBLY_BYTES ∧
      collectComplexAckPayload 1 12 (mkSeg 1 12 0 true none)
          (List.replicate 1048577 0) [] =
        (.error (.responseTooLarge MAX_COMPLEX_ACK_REASSEMBLY_BYTES), [])) := by
  have hbig : (List.replicate 1048577 (0 : Nat)).length >
      MAX_COMPLEX_ACK_REASSEMBLY_BYTES := by
    simp only [List.length_replicate]
    decide
  exact
    ⟨⟨rfl, rfl, rfl, rfl,
      claim_C1_complex_ack_reassembly.1 1 12 [9] 5 2 (mkSeg 1 12 5 true none)
        [7] [] rfl rfl rfl rfl⟩,
     ⟨rfl, by decide, by decide,
      claim_C1_complex_ack_reassembly.2.1 1 12 [9] 5 2 9
        (mkSeg 1 12 9 true none) [7] [] rfl rfl rfl rfl (by decide) (by decide)⟩,
     ⟨by decide, by decide,
      claim_C1_complex_ack_reassembly.2.2.1 1 12 0 none [1] [[2], [3]]
        (by decide) (by decide)⟩,
     ⟨hbig,
      claim_C1_complex_ack_reassembly.2.2.2.1 1 12 (mkSeg 1 12 0 true none)
        (List.replicate 1048577 0) [] hbig⟩⟩

/-! ## NPDU and client receive loops (`rustbac-core/src/npdu.rs`,
`rustbac-client/src/client.rs`) -/

/-- An NPDU source/destination address (`NpduAddress`); the Rust struct pads
the MAC into a `[u8; 6]`, represented here by the read bytes themselves. -/
structure NpduAddress where
  network : Nat
  macLen : Nat
  mac : List Nat
  deriving DecidableEq, Repr

/-- `decode_addr`: network u16, MAC length (≤ 6), MAC bytes. -/
def decodeAddr (bytes : List Nat) :
    Except DecodeError (NpduAddress × List Nat) := do
  let (network, r1) ← readBeU16 bytes
  let (macLen, r2) ← readU8 r1
  if macLen > 6 then .error .invalidLength
  else do
    let (mac, r3) ← readExact macLen r2
    .ok ({ network, macLen, mac }, r3)

/-- `Npdu` header fields. -/
structure Npdu where
  control : Nat
  destination : Option NpduAddress
  source : Option NpduAddress
  hopCount : Option Nat
  messageType : Option Nat
  vendorId : Option Nat
  deriving DecidableEq, Repr

/-- `Npdu::decode`: version must be 0x01; the control octet gates the
optional fields (`& 0x20` is `/ 32 % 2`, `& 0x08` is `/ 8 % 2`, `& 0x80` is
`/ 128 % 2`). -/
def Npdu.decode (bytes : List Nat) : Except DecodeError (Npdu × List Nat) := do
  let (version, r0) ← readU8 bytes
  if version ≠ 1 then .error .invalidValue
  else do
    let (control, r1) ← readU8 r0
    let (destination, r2) ←
      if control / 32 % 2 = 1 then
        (decodeAddr r1).map fun (a, r) => (some a, r)
      else .ok (none, r1)
    let (source, r3) ←
      if control / 8 % 2 = 1 then
        (decodeAddr r2).map fun (a, r) => (some a, r)
      else .ok (none, r2)
    let (hopCount, r4) ←
      if control / 32 % 2 = 1 then
        (readU8 r3).map fun (h, r) => (some h, r)
      else .ok (none, r3)
    let (mv, r5) ←
      if control / 128 % 2 = 1 then do
        let (mt, ra) ← readU8 r4
        if mt ≥ 128 then do
          let (vid, rb) ← readBeU16 ra
          .ok ((some mt, some vid), rb)
        else .ok ((some mt, none), ra)
      else .ok ((none, none), r4)
    .ok ({ control, destination, source, hopCount,
           messageType := mv.1, vendorId := mv.2 }, r5)

/-- `extract_apdu`: strip the NPDU and return the rest of the frame. -/
def extractApdu (payload : List Nat) : Except ClientError (List Nat) :=
  match Npdu.decode payload with
  | .error e => .error (.decodeFailed e)
  | .ok (_, rest) => .ok rest

/-- `UnconfirmedRequestHeader::decode`. -/
def unconfirmedHeaderDecode (bytes : List Nat) :
    Except DecodeError (Nat × List Nat) := do
  let (b0, r0) ← readU8 bytes
  if b0 / 16 ≠ ApduType.unconfirmedRequest.toU8 then .error .invalidValue
  else readU8 r0

/-- `decode_app_unsigned`. -/
def decodeAppUnsigned (bytes : List Nat) :
    Except DecodeError (Nat × List Nat) := do
  let (t, r) ← Tag.decode bytes
  match t with
  | .application .unsignedInt len => decodeUnsigned len r
  | _ => .error .invalidTag

/-- `decode_app_enumerated`. -/
def decodeAppEnumerated (bytes : List Nat) :
    Except DecodeError (Nat × List Nat) := do
  let (t, r) ← Tag.decode bytes
  match t with
  | .application .enumerated len => decodeUnsigned len r
  | _ => .error .invalidTag

/-- `IAmRequest` (device id kept as the raw packed object-id). -/
structure IAmRequest where
  deviceId : Nat
  maxApdu : Nat
  segmentation : Nat
  vendorId : Nat
  deriving DecidableEq, Repr

/-- `IAmRequest::decode_after_header`. -/
def IAmRequest.decodeAfterHeader (bytes : List Nat) :
    Except DecodeError (IAmRequest × List Nat) := do
  let (t, r0) ← Tag.decode bytes
  match t with
  | .application .objectId 4 => do
      let (b, r1) ← readExact 4 r0
      let (maxApdu, r2) ← decodeAppUnsigned r1
      let (segmentation, r3) ← decodeAppEnumerated r2
      let (vendorId, r4) ← decodeAppUnsigned r3
      .ok ({ deviceId := beValue b, maxApdu, segmentation, vendorId }, r4)
  | _ => .error .invalidTag

/-- `SERVICE_I_AM`. -/
def SERVICE_I_AM : Nat := 0x00

/-- `SERVICE_CONFIRMED_COV_NOTIFICATION`. -/
def SERVICE_CONFIRMED_COV_NOTIFICATION : Nat := 0x01

/-- `SERVICE_UNCONFIRMED_COV_NOTIFICATION`. -/
def SERVICE_UNCONFIRMED_COV_NOTIFICATION : Nat := 0x02

/-- `recv_ignoring_invalid_frame`: the receive primitive of every confirmed
exchange. One script entry is one `datalink.recv` outcome; script
exhaustion is the deadline (`Timeout`). `InvalidFrame` loops; any other
data-link error is returned; a frame is returned as-is. -/
def recvIgnoringInvalidFrame :
    List (Except DataLinkError (List Nat × SockAddrV4)) →
      Except ClientError (List Nat × SockAddrV4)
  | [] => .error .timeout
  | e :: rest =>
    match e with
    | .error .invalidFrame => recvIgnoringInvalidFrame rest
    | .error err => .error (.dataLink err)
    | .ok v => .ok v

/-- The `who_is` collection loop (client.rs lines 697–727): I-Am frames add
unique sources; undecodable frames and `InvalidFrame` errors are skipped;
any other data-link error terminates; deadline returns the devices. -/
def whoIsCollectLoop (devices : List (SockAddrV4 × Option Nat))
    (seen : List SockAddrV4) :
    List (Except DataLinkError (List Nat × SockAddrV4)) →
      Except ClientError (List (SockAddrV4 × Option Nat))
  | [] => .ok devices
  | e :: rest =>
    match e with
    | .ok (frame, src) =>
        match extractApdu frame with
        | .error _ => whoIsCollectLoop devices seen rest
        | .ok apdu =>
          match unconfirmedHeaderDecode apdu with
          | .error _ => whoIsCollectLoop devices seen rest
          | .ok (serviceChoice, r) =>
            if serviceChoice ≠ SERVICE_I_AM then whoIsCollectLoop devices seen rest
            else
              match IAmRequest.decodeAfterHeader r with
              | .error _ => whoIsCollectLoop devices seen rest
              | .ok (iam, _) =>
                  if src ∈ seen then whoIsCollectLoop devices seen rest
                  else
                    whoIsCollectLoop (devices ++ [(src, some iam.deviceId)])
                      (src :: seen) rest
    | .error .invalidFrame => whoIsCollectLoop devices seen rest
    | .error err => .error (.dataLink err)

/-- `ConfirmedRequestHeader::decode`. -/
structure ConfirmedRequestHeader where
  segmented : Bool
  moreFollows : Bool
  segmentedResponseAccepted : Bool
  maxSegments : Nat
  maxApdu : Nat
  invokeId : Nat
  sequenceNumber : Option Nat
  proposedWindowSize : Option Nat
  serviceChoice : Nat
  deriving DecidableEq, Repr

def confirmedHeaderDecode (bytes : List Nat) :
    Except DecodeError (ConfirmedRequestHeader × List Nat) := do
  let (b0, r0) ← readU8 bytes
  if b0 / 16 ≠ ApduType.confirmedRequest.toU8 then .error .invalidValue
  else do
    let (segApdu, r1) ← readU8 r0
    let (invokeId, r2) ← readU8 r1
    let segmented := b0 / 8 % 2 = 1
    let (sp, r3) ←
      if b0 / 8 % 2 = 1 then do
        let (sq, ra) ← readU8 r2
        let (pw, rb) ← readU8 ra
        .ok ((some sq, some pw), rb)
      else .ok ((none, none), r2)
    let (serviceChoice, r4) ← readU8 r3
    .ok ({ segmented := decide segmented,
           moreFollows := decide (b0 / 4 % 2 = 1),
           segmentedResponseAccepted := decide (b0 / 2 % 2 = 1),
           maxSegments := segApdu / 16, maxApdu := segApdu % 16,
           invokeId, sequenceNumber := sp.1, proposedWindowSize := sp.2,
           serviceChoice }, r4)

/-- The notification delivered by `recv_cov_notification`: the source, the
confirmed flag and the raw service body. The body's field-level decode
(`CovNotificationRequest::decode_after_header` and
`into_client_cov_notification`) is kept as the undecoded bytes; this claim
is about data-link error routing, which happens before any parsing. -/
structure CovDelivery where
  source : SockAddrV4
  confirmed : Bool
  body : List Nat
  deriving DecidableEq, Repr

/-- `recv_cov_notification` (client.rs lines 1506–1551): unlike the loops
above, a data-link error — `InvalidFrame` included — is returned to the
caller (`Ok(Err(e)) => return Err(e.into())`). Deadline yields `Ok(None)`. -/
def recvCovNotification :
    List (Except DataLinkError (List Nat × SockAddrV4)) →
      Except ClientError (Option CovDelivery)
  | [] => .ok none
  | e :: rest =>
    match e with
    | .error err => .error (.dataLink err)
    | .ok (frame, source) =>
      match extractApdu frame with
      | .error err => .error err
      | .ok apdu =>
        match apdu.head? with
        | none => .error .unsupportedResponse
        | some first =>
          match ApduType.fromU8 (first / 16) with
          | some .unconfirmedRequest =>
              match unconfirmedHeaderDecode apdu with
              | .error err => .error (.decodeFailed err)
              | .ok (serviceChoice, r) =>
                if serviceChoice ≠ SERVICE_UNCONFIRMED_COV_NOTIFICATION then
                  recvCovNotification rest
                else .ok (some { source, confirmed := false, body := r })
          | some .confirmedRequest =>
              match confirmedHeaderDecode apdu with
              | .error err => .error (.decodeFailed err)
              | .ok (header, r) =>
                if header.serviceChoice ≠ SERVICE_CONFIRMED_COV_NOTIFICATION then
                  recvCovNotification rest
                else if header.segmented then .error .unsupportedResponse
                else .ok (some { source, confirmed := true, body := r })
          | _ => recvCovNotification rest

/-- True exactly on an `InvalidFrame` data-link event. -/
def isInvalidFrameEvent : Except DataLinkError (List Nat × SockAddrV4) → Bool
  | .error .invalidFrame => true
  | _ => false

/-- **C9 (counterexample)**: the claim says every client receive loop
swallows `InvalidFrame`, notification reception included; but
`recv_cov_notification` returns the error to its caller on the very first
`InvalidFrame` from the data link, while the confirmed-request receive
primitive retries it (here into the deadline `Timeout`). -/
theorem claim_C9_counterexample :
    recvCovNotification [.error .invalidFrame] =
      .error (.dataLink .invalidFrame) ∧
    (∀ d : Option CovDelivery,
        recvCovNotification [.error .invalidFrame] ≠ .ok d) ∧
    recvIgnoringInvalidFrame [.error .invalidFrame] = .error .timeout := by
  refine ⟨rfl, ?_, rfl⟩
  intro d
  simp [recvCovNotification]

/-- **C9 (amended)**: `InvalidFrame` is swallowed and retried in the
confirmed-request receive primitive (`recv_ignoring_invalid_frame`) and in
the broadcast-discovery loop — deleting `InvalidFrame` events does not
change the former's result, it never surfaces `InvalidFrame`, and both
loops step over such an event with their state untouched — while every
other data-link error terminates; but the notification-reception loop
(`recv_cov_notification`) terminates on every data-link error,
`InvalidFrame` included. -/
theorem claim_C9_invalid_frame_routing :
    (∀ events : List (Except DataLinkError (List Nat × SockAddrV4)),
      recvIgnoringInvalidFrame events =
        recvIgnoringInvalidFrame
          (events.filter fun e => !isInvalidFrameEvent e)) ∧
    (∀ events : List (Except DataLinkError (List Nat × SockAddrV4)),
      recvIgnoringInvalidFrame events ≠ .error (.dataLink .invalidFrame)) ∧
    (∀ err : DataLinkError, err ≠ .invalidFrame →
      ∀ rest : List (Except DataLinkError (List Nat × SockAddrV4)),
      recvIgnoringInvalidFrame (.error err :: rest) = .error (.dataLink err)) ∧
    (∀ (devices : List (SockAddrV4 × Option Nat)) (seen : List SockAddrV4)
        (rest : List (Except DataLinkError (List Nat × SockAddrV4))),
      whoIsCollectLoop devices seen (.error .invalidFrame :: rest) =
        whoIsCollectLoop devices seen rest) ∧
    (∀ (devices : List (SockAddrV4 × Option Nat)) (seen : List SockAddrV4)
        (err : DataLinkError), err ≠ .invalidFrame →
      ∀ rest : List (Except DataLinkError (List Nat × SockAddrV4)),
      whoIsCollectLoop devices seen (.error err :: rest) =
        .error (.dataLink err)) ∧
    (∀ (err : DataLinkError)
        (rest : List (Except DataLinkError (List Nat × SockAddrV4))),
      recvCovNotification (.error err :: rest) = .error (.dataLink err)) := by
  refine ⟨?_, ?_, ?_, fun _ _ _ => rfl, ?_, fun err rest => rfl⟩
  · intro events
    induction events with
    | nil => rfl
    | cons e rest ih =>
        cases e with
        | ok v => simp [recvIgnoringInvalidFrame, List.filter, isInvalidFrameEvent]
        | error err =>
            cases err with
            | invalidFrame =>
                simpa [recvIgnoringInvalidFrame, List.filter,
                  isInvalidFrameEvent] using ih
            | io =>
                simp [recvIgnoringInvalidFrame, List.filter, isInvalidFrameEvent]
            | frameTooLarge =>
                simp [recvIgnoringInvalidFrame, List.filter, isInvalidFrameEvent]
            | unsupportedBvlcFunction c =>
                simp [recvIgnoringInvalidFrame, List.filter, isInvalidFrameEvent]
            | bvlcResult c =>
                simp [recvIgnoringInvalidFrame, List.filter, isInvalidFrameEvent]
            | bbmdNotConfigured =>
                simp [recvIgnoringInvalidFrame, List.filter, isInvalidFrameEvent]
  · intro events
    induction events with
    | nil => simp [recvIgnoringInvalidFrame]
    | cons e rest ih =>
        cases e with
        | ok v => simp [recvIgnoringInvalidFrame]
        | error err =>
            cases err with
            | invalidFrame => simpa [recvIgnoringInvalidFrame] using ih
            | io => simp [recvIgnoringInvalidFrame]
            | frameTooLarge => simp [recvIgnoringInvalidFrame]
            | unsupportedBvlcFunction c => simp [recvIgnoringInvalidFrame]
            | bvlcResult c => simp [recvIgnoringInvalidFrame]
            | bbmdNotConfigured => simp [recvIgnoringInvalidFrame]
  · intro err hne rest
    cases err with
    | invalidFrame => exact absurd rfl hne
    | io => rfl
    | frameTooLarge => rfl
    | unsupportedBvlcFunction c => rfl
    | bvlcResult c => rfl
    | bbmdNotConfigured => rfl
  · intro devices seen err hne rest
    cases err with
    | invalidFrame => exact absurd rfl hne
    | io => rfl
    | frameTooLarge => rfl
    | unsupportedBvlcFunction c => rfl
    | bvlcResult c => rfl
    | bbmdNotConfigured => rfl

/-- Witness for the amended C9 at the concrete error `Io`: it terminates both
the confirmed-request receive primitive and the who-is loop. -/
theorem claim_C9_witness :
    DataLinkError.io ≠ DataLinkError.invalidFrame ∧
    recvIgnoringInvalidFrame [.error .io] = .error (.dataLink .io) ∧
    whoIsCollectLoop [] [] [.error .io] = .error (.dataLink .io) :=
  ⟨by decide,
   claim_C9_invalid_frame_routing.2.2.1 .io (by decide) [],
   claim_C9_invalid_frame_routing.2.2.2.2.1 [] [] .io (by decide) []⟩

/-! ## Confirmed-Private-Transfer ack
(`rustbac-core/src/services/private_transfer.rs`) -/

/-- The probe loop of `decode_constructed_block_inner_bytes`: scan tags,
tracking the nesting `stack`; `pos` is the current offset from the scan
start (`r.position() - start` bookkeeping). At an unmatched closing tag of
the expected number the offset of that tag (`tag_start - start`) is
returned. The `fuel` bounds the loop; each iteration consumes at least one
byte, so fuel exceeding the input length never runs out (`none`). -/
def probeScan (expected : Nat) :
    Nat → List Nat → Nat → List Nat → Option (Except DecodeError Nat)
  | 0, _, _, _ => none
  | fuel + 1, stack, pos, bytes =>
    match Tag.decode bytes with
    | .error e => some (.error e)
    | .ok (tag, r1) =>
      let pos1 := pos + (bytes.length - r1.length)
      match tag with
      | .application .boolean _ => probeScan expected fuel stack pos1 r1
      | .application _ len =>
          match readExact len r1 with
          | .error e => some (.error e)
          | .ok (_, r2) => probeScan expected fuel stack (pos1 + len) r2
      | .context _ len =>
          match readExact len r1 with
          | .error e => some (.error e)
          | .ok (_, r2) => probeScan expected fuel stack (pos1 + len) r2
      | .opening t => probeScan expected fuel (t :: stack) pos1 r1
      | .closing t =>
          match stack with
          | opening :: stack2 =>
              if opening ≠ t then some (.error .invalidTag)
              else probeScan expected fuel stack2 pos1 r1
          | [] =>
              if t = expected then some (.ok pos)
              else some (.error .invalidTag)

/-- `decode_constructed_block_inner_bytes`: probe for the matching closing
tag, take the raw bytes before it, then consume the closing tag. -/
def decodeConstructedBlockInnerBytes (expectedTagNum : Nat)
    (bytes : List Nat) : Except DecodeError (List Nat × List Nat) :=
  match probeScan expectedTagNum (bytes.length + 1) [] 0 bytes with
  | none => .error .unexpectedEof
  | some (.error e) => .error e
  | some (.ok innerLen) =>
    match readExact innerLen bytes with
    | .error e => .error e
    | .ok (inner, r) =>
      match Tag.decode r with
      | .error e => .error e
      | .ok (.closing closing, r2) =>
          if closing = expectedTagNum then .ok (inner, r2)
          else .error .invalidTag
      | .ok _ => .error .invalidTag

/-- `decode_ctx_unsigned` (private_transfer.rs). -/
def decodeCtxUnsigned (expectedTagNum : Nat) (bytes : List Nat) :
    Except DecodeError (Nat × List Nat) := do
  let (t, r) ← Tag.decode bytes
  match t with
  | .context tagNum len =>
      if tagNum = expectedTagNum then decodeUnsigned len r
      else .error .invalidTag
  | _ => .error .invalidTag

/-- `encode_ctx_unsigned` (primitives.rs): a context tag of the minimal
unsigned length followed by the value bytes. -/
def encodeCtxUnsigned (tagNum v : Nat) : List Nat :=
  Tag.encode (.context tagNum (encUnsignedLen v)) ++ encodeUnsigned v

/-- `ConfirmedPrivateTransferAck`. -/
structure ConfirmedPrivateTransferAck where
  vendorId : Nat
  serviceNumber : Nat
  resultBlock : Option (List Nat)
  deriving DecidableEq, Repr

/-- `ConfirmedPrivateTransferAck::decode`: `[0]` vendor-id, `[1]`
service-number, optional `[2]` constructed result block, then any leftover
bytes are `InvalidTag`. -/
def ConfirmedPrivateTransferAck.decode (bytes : List Nat) :
    Except DecodeError (ConfirmedPrivateTransferAck × List Nat) := do
  let (vendorId, r1) ← decodeCtxUnsigned 0 bytes
  let (serviceNumber, r2) ← decodeCtxUnsigned 1 r1
  let (resultBlock, r3) ←
    if r2.isEmpty then Except.ok (none, r2)
    else do
      let (t, ra) ← Tag.decode r2
      match t with
      | .opening tn =>
          if tn = 2 then
            (decodeConstructedBlockInnerBytes 2 ra).map fun (inner, rb) =>
              (some inner, rb)
          else .error .invalidTag
      | _ => .error .invalidTag
  if r3.isEmpty then .ok ({ vendorId, serviceNumber, resultBlock }, r3)
  else .error .invalidTag

/-- The grammar of byte sequences the probe scans through without ever
finding an unmatched closing tag: primitive tags with their payloads,
boolean application tags (whose length field encodes the value, so the
probe skips no payload), and properly nested opening/closing pairs. -/
inductive BalItem where
  | boolTag (len : Nat)
  | primApp (t : AppTag) (payload : List Nat)
  | primCtx (tagNum : Nat) (payload : List Nat)
  | nest (tagNum : Nat) (items : List BalItem)

mutual

/-- The wire bytes of one grammar item. -/
def encodeItem : BalItem → List Nat
  | .boolTag len => Tag.encode (.application .boolean len)
  | .primApp t payload => Tag.encode (.application t payload.length) ++ payload
  | .primCtx tn payload => Tag.encode (.context tn payload.length) ++ payload
  | .nest tn items =>
      Tag.encode (.opening tn) ++ encodeItems items ++
        Tag.encode (.closing tn)

/-- The wire bytes of a sequence of grammar items. -/
def encodeItems : List BalItem → List Nat
  | [] => []
  | i :: rest => encodeItem i ++ encodeItems rest

end

mutual

/-- Wellformedness: tag numbers in the codec's domain and lengths below
`2^32`; the `boolean` application tag is excluded from `primApp` (it is
covered by `boolTag`, with no payload). -/
def itemOk : BalItem → Bool
  | .boolTag len => decide (len < 2 ^ 32)
  | .primApp t payload =>
      (t != .boolean) && decide (payload.length < 2 ^ 32)
  | .primCtx tn payload =>
      decide (tn ≤ 254) && decide (payload.length < 2 ^ 32)
  | .nest tn items => decide (tn ≤ 254) && itemsOk items

def itemsOk : List BalItem → Bool
  | [] => true
  | i :: rest => itemOk i && itemsOk rest

end

mutual

/-- Probe iterations needed to scan one item. -/
def itersItem : BalItem → Nat
  | .boolTag _ => 1
  | .primApp _ _ => 1
  | .primCtx _ _ => 1
  | .nest _ items => 2 + itersItems items

/-- Probe iterations needed to scan an item sequence. -/
def itersItems : List BalItem → Nat
  | [] => 0
  | i :: rest => itersItem i + itersItems rest

end

theorem tagEncode_length_pos (t : Tag) : 0 < (Tag.encode t).length := by
  cases t <;> simp [Tag.encode, encodeWithMeta, encodeOpenClose]

mutual

theorem itersItem_le (i : BalItem) : itersItem i ≤ (encodeItem i).length := by
  cases i with
  | boolTag len =>
      have := tagEncode_length_pos (.application .boolean len)
      simpa [itersItem, encodeItem] using this
  | primApp t payload =>
      have := tagEncode_length_pos (.application t payload.length)
      simp [itersItem, encodeItem, List.length_append]
      omega
  | primCtx tn payload =>
      have := tagEncode_length_pos (.context tn payload.length)
      simp [itersItem, encodeItem, List.length_append]
      omega
  | nest tn items =>
      have h1 := tagEncode_length_pos (.opening tn)
      have h2 := tagEncode_length_pos (.closing tn)
      have h3 := itersItems_le items
      simp [itersItem, encodeItem, List.length_append]
      omega

theorem itersItems_le (l : List BalItem) :
    itersItems l ≤ (encodeItems l).length := by
  cases l with
  | nil => simp [itersItems, encodeItems]
  | cons i rest =>
      have h1 := itersItem_le i
      have h2 := itersItems_le rest
      simp [itersItems, encodeItems, List.length_append]
      omega

end

mutual

theorem probeScan_item (expected : Nat) (i : BalItem) (hok : itemOk i = true)
    (stack : List Nat) (pos : Nat) (bytes : List Nat) (fuel : Nat) :
    probeScan expected (itersItem i + fuel) stack pos (encodeItem i ++ bytes) =
      probeScan expected fuel stack (pos + (encodeItem i).length) bytes := by
  cases i with
  | boolTag len =>
      simp only [itemOk, decide_eq_true_eq] at hok
      rw [show itersItem (.boolTag len) + fuel = fuel + 1 from by
        simp [itersItem, Nat.add_comm]]
      conv_lhs => rw [probeScan]
      rw [show encodeItem (.boolTag len) ++ bytes =
        Tag.encode (.application .boolean len) ++ bytes from rfl]
      rw [tagRoundtrip_application .boolean len hok bytes]
      simp only [encodeItem, List.length_append, Nat.add_sub_cancel,
        Nat.add_assoc]
  | primApp t payload =>
      simp only [itemOk, Bool.and_eq_true, bne_iff_ne, ne_eq,
        decide_eq_true_eq] at hok
      obtain ⟨hne, hlen⟩ := hok
      rw [show itersItem (.primApp t payload) + fuel = fuel + 1 from by
        simp [itersItem, Nat.add_comm]]
      conv_lhs => rw [probeScan]
      rw [show encodeItem (.primApp t payload) ++ bytes =
        Tag.encode (.application t payload.length) ++ (payload ++ bytes) from by
          simp [encodeItem, List.append_assoc]]
      rw [tagRoundtrip_application t payload.length hlen (payload ++ bytes)]
      cases t with
      | boolean => exact absurd rfl hne
      | null =>
          simp only []
          rw [readExact_append payload bytes payload.length rfl]
          simp only [encodeItem, List.length_append, Nat.add_sub_cancel,
            Nat.add_assoc]
      | unsignedInt =>
          simp only []
          rw [readExact_append payload bytes payload.length rfl]
          simp only [encodeItem, List.length_append, Nat.add_sub_cancel,
            Nat.add_assoc]
      | signedInt =>
          simp only []
          rw [readExact_append payload bytes payload.length rfl]
          simp only [encodeItem, List.length_append, Nat.add_sub_cancel,
            Nat.add_assoc]
      | real =>
          simp only []
          rw [readExact_append payload bytes payload.length rfl]
          simp only [encodeItem, List.length_append, Nat.add_sub_cancel,
            Nat.add_assoc]
      | double =>
          simp only []
          rw [readExact_append payload bytes payload.length rfl]
          simp only [encodeItem, List.length_append, Nat.add_sub_cancel,
            Nat.add_assoc]
      | octetString =>
          simp only []
          rw [readExact_append payload bytes payload.length rfl]
          simp only [encodeItem, List.length_append, Nat.add_sub_cancel,
            Nat.add_assoc]
      | characterString =>
          simp only []
          rw [readExact_append payload bytes payload.length rfl]
          simp only [encodeItem, List.length_append, Nat.add_sub_cancel,
            Nat.add_assoc]
      | bitString =>
          simp only []
          rw [readExact_append payload bytes payload.length rfl]
          simp only [encodeItem, List.length_append, Nat.add_sub_cancel,
            Nat.add_assoc]
      | enumerated =>
          simp only []
          rw [readExact_append payload bytes payload.length rfl]
          simp only [encodeItem, List.length_append, Nat.add_sub_cancel,
            Nat.add_assoc]
      | date =>
          simp only []
          rw [readExact_append payload bytes payload.length rfl]
          simp only [encodeItem, List.length_append, Nat.add_sub_cancel,
            Nat.add_assoc]
      | time =>
          simp only []
          rw [readExact_append payload bytes payload.length rfl]
          simp only [encodeItem, List.length_append, Nat.add_sub_cancel,
            Nat.add_assoc]
      | objectId =>
          simp only []
          rw [readExact_append payload bytes payload.length rfl]
          simp only [encodeItem, List.length_append, Nat.add_sub_cancel,
            Nat.add_assoc]
  | primCtx tn payload =>
      simp only [itemOk, Bool.and_eq_true, decide_eq_true_eq] at hok
      obtain ⟨htn, hlen⟩ := hok
      rw [show itersItem (.primCtx tn payload) + fuel = fuel + 1 from by
        simp [itersItem, Nat.add_comm]]
      conv_lhs => rw [probeScan]
      rw [show encodeItem (.primCtx tn payload) ++ bytes =
        Tag.encode (.context tn payload.length) ++ (payload ++ bytes) from by
          simp [encodeItem, List.append_assoc]]
      rw [tagRoundtrip_context tn payload.length htn hlen (payload ++ bytes)]
      simp only []
      rw [readExact_append payload bytes payload.length rfl]
      simp only [encodeItem, List.length_append, Nat.add_sub_cancel,
        Nat.add_assoc]
  | nest tn items =>
      simp only [itemOk, Bool.and_eq_true, decide_eq_true_eq] at hok
      obtain ⟨htn, hitems⟩ := hok
      rw [show itersItem (.nest tn items) + fuel =
        (itersItems items + (fuel + 1)) + 1 from by simp [itersItem]; omega]
      conv_lhs => rw [probeScan]
      rw [show encodeItem (.nest tn items) ++ bytes =
        Tag.encode (.opening tn) ++
          (encodeItems items ++ (Tag.encode (.closing tn) ++ bytes)) from by
          simp [encodeItem, List.append_assoc]]
      rw [tagRoundtrip_opening tn htn _]
      simp only [List.length_append, Nat.add_sub_cancel]
      rw [probeScan_items expected items hitems (tn :: stack) _ _ (fuel + 1)]
      conv_lhs => rw [probeScan]
      rw [tagRoundtrip_closing tn htn bytes]
      simp only [encodeItem, List.length_append, Nat.add_sub_cancel, ne_eq,
        eq_self_iff_true, not_true, if_false, Nat.add_assoc]

theorem probeScan_items (expected : Nat) (l : List BalItem)
    (hok : itemsOk l = true) (stack : List Nat) (pos : Nat) (bytes : List Nat)
    (fuel : Nat) :
    probeScan expected (itersItems l + fuel) stack pos
        (encodeItems l ++ bytes) =
      probeScan expected fuel stack (pos + (encodeItems l).length) bytes := by
  cases l with
  | nil => simp [itersItems, encodeItems]
  | cons i rest =>
      simp only [itemsOk, Bool.and_eq_true] at hok
      obtain ⟨hi, hrest⟩ := hok
      rw [show itersItems (i :: rest) + fuel =
        itersItem i + (itersItems rest + fuel) from by simp [itersItems]; omega]
      rw [show encodeItems (i :: rest) ++ bytes =
        encodeItem i ++ (encodeItems rest ++ bytes) from by
          simp [encodeItems, List.append_assoc]]
      rw [probeScan_item expected i hi stack pos _ _]
      rw [probeScan_items expected rest hrest stack _ bytes fuel]
      simp only [encodeItems, List.length_append, Nat.add_assoc]

end

theorem probeScan_closing (items : List BalItem) (hok : itemsOk items = true)
    (trailing : List Nat) :
    probeScan 2
        ((encodeItems items ++
          (Tag.encode (.closing 2) ++ trailing)).length + 1)
        [] 0 (encodeItems items ++ (Tag.encode (.closing 2) ++ trailing)) =
      some (.ok (encodeItems items).length) := by
  have hle := itersItems_le items
  rw [show (encodeItems items ++
        (Tag.encode (.closing 2) ++ trailing)).length + 1 =
      itersItems items +
        (((encodeItems items ++
            (Tag.encode (.closing 2) ++ trailing)).length -
          itersItems items) + 1) from by
      simp only [List.length_append]; omega]
  rw [probeScan_items 2 items hok [] 0 _ _]
  conv_lhs => rw [probeScan]
  rw [tagRoundtrip_closing 2 (by omega) trailing]
  simp

theorem decodeConstructedBlockInnerBytes_encodeItems (items : List BalItem)
    (hok : itemsOk items = true) (trailing : List Nat) :
    decodeConstructedBlockInnerBytes 2
        (encodeItems items ++ (Tag.encode (.closing 2) ++ trailing)) =
      .ok (encodeItems items, trailing) := by
  unfold decodeConstructedBlockInnerBytes
  rw [probeScan_closing items hok trailing]
  simp only []
  rw [readExact_append (encodeItems items)
      (Tag.encode (.closing 2) ++ trailing) _ rfl]
  simp only []
  rw [tagRoundtrip_closing 2 (by omega) trailing]
  simp

theorem decodeCtxUnsigned_encodeCtxUnsigned (tn v : Nat) (htn : tn ≤ 254)
    (hv : v < 2 ^ 32) (rest : List Nat) :
    decodeCtxUnsigned tn (encodeCtxUnsigned tn v ++ rest) = .ok (v, rest) := by
  have hlen : encUnsignedLen v < 2 ^ 32 := by
    unfold encUnsignedLen; split_ifs <;> norm_num
  unfold decodeCtxUnsigned encodeCtxUnsigned
  rw [List.append_assoc]
  rw [tagRoundtrip_context tn (encUnsignedLen v) htn hlen
      (encodeUnsigned v ++ rest)]
  simp only [bind, Except.bind]
  rw [if_pos trivial]
  exact decodeUnsigned_encodeUnsigned v hv rest

/-- A Confirmed-Private-Transfer ack body on the wire: `[0]` vendor-id,
`[1]` service-number, and optionally an opening/closing context-2 pair
around the raw result-block bytes. -/
def ptAckBody (v s : Nat) (block : Option (List Nat)) : List Nat :=
  encodeCtxUnsigned 0 v ++ encodeCtxUnsigned 1 s ++
    (match block with
     | none => []
     | some inner =>
         Tag.encode (.opening 2) ++ inner ++ Tag.encode (.closing 2))

theorem ptAck_decode_present (v s : Nat) (hv : v < 2 ^ 32) (hs : s < 2 ^ 32)
    (items : List BalItem) (hok : itemsOk items = true) (trailing : List Nat) :
    ConfirmedPrivateTransferAck.decode
        (encodeCtxUnsigned 0 v ++ (encodeCtxUnsigned 1 s ++
          (Tag.encode (.opening 2) ++ (encodeItems items ++
            (Tag.encode (.closing 2) ++ trailing))))) =
      (if trailing.isEmpty then
        .ok ({ vendorId := v, serviceNumber := s,
               resultBlock := some (encodeItems items) }, trailing)
      else .error .invalidTag) := by
  unfold ConfirmedPrivateTransferAck.decode
  rw [decodeCtxUnsigned_encodeCtxUnsigned 0 v (by omega) hv _]
  simp only [bind, Except.bind]
  rw [decodeCtxUnsigned_encodeCtxUnsigned 1 s (by omega) hs _]
  simp only []
  rw [if_neg (show ¬((Tag.encode (.opening 2) ++ (encodeItems items ++
      (Tag.encode (.closing 2) ++ trailing))).isEmpty = true) from by
    simp [Tag.encode, encodeOpenClose])]
  rw [tagRoundtrip_opening 2 (by omega) _]
  simp only [bind, Except.bind]
  rw [if_pos trivial]
  rw [decodeConstructedBlockInnerBytes_encodeItems items hok trailing]
  simp [Except.map]

theorem ptAck_decode_absent_nil (v s : Nat) (hv : v < 2 ^ 32)
    (hs : s < 2 ^ 32) :
    ConfirmedPrivateTransferAck.decode
        (encodeCtxUnsigned 0 v ++ (encodeCtxUnsigned 1 s ++ [])) =
      .ok ({ vendorId := v, serviceNumber := s, resultBlock := none }, []) := by
  unfold ConfirmedPrivateTransferAck.decode
  rw [decodeCtxUnsigned_encodeCtxUnsigned 0 v (by omega) hv _]
  simp only [bind, Except.bind]
  rw [decodeCtxUnsigned_encodeCtxUnsigned 1 s (by omega) hs _]
  simp

theorem ptAck_decode_absent_trailing (v s : Nat) (hv : v < 2 ^ 32)
    (hs : s < 2 ^ 32) (trailing : List Nat) (htr : trailing ≠ [])
    (r : List Nat) :
    ConfirmedPrivateTransferAck.decode
        (encodeCtxUnsigned 0 v ++ (encodeCtxUnsigned 1 s ++ trailing)) ≠
      .ok ({ vendorId := v, serviceNumber := s, resultBlock := none }, r) := by
  unfold ConfirmedPrivateTransferAck.decode
  rw [decodeCtxUnsigned_encodeCtxUnsigned 0 v (by omega) hv _]
  simp only [bind, Except.bind]
  rw [decodeCtxUnsigned_encodeCtxUnsigned 1 s (by omega) hs _]
  simp only []
  rw [if_neg (show ¬(trailing.isEmpty = true) from by
    simpa [List.isEmpty_iff] using htr)]
  rcases htd : Tag.decode trailing with e | tra
  · simp [htd]
  · obtain ⟨t, ra⟩ := tra
    simp only [bind, Except.bind]
    cases t with
    | application t len => simp
    | context tn len => simp
    | closing tn => simp
    | opening tn =>
        by_cases h2 : tn = 2
        · subst h2
          rcases hdc : decodeConstructedBlockInnerBytes 2 ra with e | ib
          · simp [Except.map]
          · obtain ⟨inner, rb⟩ := ib
            simp only [Except.map, eq_self_iff_true, if_true]
            split_ifs <;> simp
        · simp [h2]

/-- **C7**: For every Confirmed-Private-Transfer ack body, the decoder
returns the raw bytes strictly between the opening context-2 tag and its
matching closing context-2 tag unchanged, even when properly nested
opening/closing tag pairs occur inside the block (the block content ranges
over `encodeItems items`, which covers arbitrary well-nested tag
sequences); any bytes remaining after the matching closing tag fail with
`InvalidTag`, and after the service-number with the block absent no extra
bytes can yield the absent-block ack; an empty opening/closing context-2
pair decodes to `some []`, which is distinct from the `none` of an absent
block. -/
theorem claim_C7_private_transfer_ack (v s : Nat) (hv : v < 2 ^ 32)
    (hs : s < 2 ^ 32) (items : List BalItem) (hok : itemsOk items = true)
    (trailing : List Nat) (htr : trailing ≠ []) :
    ConfirmedPrivateTransferAck.decode
        (ptAckBody v s (some (encodeItems items))) =
      .ok ({ vendorId := v, serviceNumber := s,
             resultBlock := some (encodeItems items) }, []) ∧
    ConfirmedPrivateTransferAck.decode
        (ptAckBody v s (some (encodeItems items)) ++ trailing) =
      .error .invalidTag ∧
    ConfirmedPrivateTransferAck.decode (ptAckBody v s none) =
      .ok ({ vendorId := v, serviceNumber := s, resultBlock := none }, []) ∧
    (∀ r, ConfirmedPrivateTransferAck.decode (ptAckBody v s none ++ trailing) ≠
      .ok ({ vendorId := v, serviceNumber := s, resultBlock := none }, r)) ∧
    ConfirmedPrivateTransferAck.decode (ptAckBody v s (some [])) =
      .ok ({ vendorId := v, serviceNumber := s, resultBlock := some [] }, []) ∧
    ({ vendorId := v, serviceNumber := s, resultBlock := some ([] : List Nat) }
        : ConfirmedPrivateTransferAck) ≠
      { vendorId := v, serviceNumber := s, resultBlock := none } := by
  refine ⟨?_, ?_, ?_, ?_, ?_, ?_⟩
  · have h := ptAck_decode_present v s hv hs items hok []
    simpa [ptAckBody, List.append_assoc] using h
  · have h := ptAck_decode_present v s hv hs items hok trailing
    simpa [ptAckBody, List.append_assoc, List.isEmpty_iff, htr] using h
  · have h := ptAck_decode_absent_nil v s hv hs
    simpa [ptAckBody] using h
  · intro r
    have h := ptAck_decode_absent_trailing v s hv hs trailing htr r
    simpa [ptAckBody] using h
  · have h := ptAck_decode_present v s hv hs [] rfl []
    simpa [ptAckBody, encodeItems, List.append_assoc] using h
  · simp

/-- C7 witness: a concrete ack with vendor 1, service 2 and a result block
containing a nested context-3 pair around an unsigned application value;
trailing byte `99`. -/
theorem claim_C7_witness :
    ((1 : Nat) < 2 ^ 32 ∧ (2 : Nat) < 2 ^ 32 ∧
      itemsOk [.nest 3 [.primApp .unsignedInt [7]]] = true ∧
      ([99] : List Nat) ≠ []) ∧
    ConfirmedPrivateTransferAck.decode
        (ptAckBody 1 2
          (some (encodeItems [.nest 3 [.primApp .unsignedInt [7]]]))) =
      .ok ({ vendorId := 1, serviceNumber := 2,
             resultBlock :=
               some (encodeItems [.nest 3 [.primApp .unsignedInt [7]]]) },
           []) ∧
    ConfirmedPrivateTransferAck.decode
        (ptAckBody 1 2
          (some (encodeItems [.nest 3 [.primApp .unsignedInt [7]]])) ++
          [99]) =
      .error .invalidTag ∧
    ConfirmedPrivateTransferAck.decode (ptAckBody 1 2 none) =
      .ok ({ vendorId := 1, serviceNumber := 2, resultBlock := none }, []) ∧
    (∀ r,
      ConfirmedPrivateTransferAck.decode (ptAckBody 1 2 none ++ [99]) ≠
        .ok ({ vendorId := 1, serviceNumber := 2, resultBlock := none }, r)) ∧
    ConfirmedPrivateTransferAck.decode (ptAckBody 1 2 (some [])) =
      .ok ({ vendorId := 1, serviceNumber := 2, resultBlock := some [] },
           []) ∧
    ({ vendorId := 1, serviceNumber := 2, resultBlock := some ([] : List Nat) }
        : ConfirmedPrivateTransferAck) ≠
      { vendorId := 1, serviceNumber := 2, resultBlock := none } :=
  ⟨⟨by norm_num, by norm_num, by decide, by decide⟩,
   claim_C7_private_transfer_ack 1 2 (by norm_num) (by norm_num)
     [.nest 3 [.primApp .unsignedInt [7]]] (by decide) [99] (by decide)⟩
